import Mathlib

/-!
Verification development for the counter-consistency and cascade-deletion
subsystem of an image-annotation backend.

The backend stores every entity in one keyed store addressed by a
(partition key, sort key) pair, with string/number/bool attributes.
Entity repositories (`src/atoms/src/.../service.rs`) perform sequences of
independent store calls: item put/get/delete, sparse field updates
(`SET f = :v, ...`), atomic numeric increments (`SET f = f + :delta`),
prefix queries, and batched deletes.  This file embeds the store contract,
the repository operations, and the cascade-deletion orchestrator
(`src/blocks/annotations/src/blocks.rs`) as executable Lean definitions and
proves the specified properties about them.
-/

/-! ## Store values, items, keys, tables -/

/-- Attribute value: the subset of the store's native attribute
representation this code uses (`AttributeValue::S`, `::N`, `::Bool`).
Numbers are stored as decimal strings by the store; they are modelled as
unbounded integers, with the 32-bit range checks of the readers made
explicit at parse time. -/
inductive AttrVal where
  | S (s : String)
  | N (n : Int)
  | B (b : Bool)
deriving DecidableEq, Repr

/-- One attribute of an item: field name paired with its value. -/
abbrev Attr := String × AttrVal

/-- A stored item: its non-key attributes (the key is held separately). -/
abbrev Item := List Attr

/-- Addressing key of an item: (partition key PK, sort key SK). -/
abbrev Key := String × String

/-- The keyed store's single table: a finite association of keys to items,
kept in the store's iteration order. -/
abbrev Table := List (Key × Item)

/-- Read one attribute of an item (`item.get(field)`): first match. -/
def getAttr : Item → String → Option AttrVal
  | [], _ => none
  | a :: as, f => if a.1 = f then some a.2 else getAttr as f

/-- Write one attribute of an item: replace it in place when present,
append it otherwise. -/
def setAttr : Item → String → AttrVal → Item
  | [], f, v => [(f, v)]
  | a :: as, f, v => if a.1 = f then (f, v) :: as else a :: setAttr as f v

/-- Write a list of attributes left to right. -/
def setAttrs (it : Item) (fs : List Attr) : Item :=
  fs.foldl (fun acc a => setAttr acc a.1 a.2) it

/-- `get_item`: the item stored at a key, if any. -/
def getItem : Table → Key → Option Item
  | [], _ => none
  | r :: rs, k => if r.1 = k then some r.2 else getItem rs k

/-- `put_item`: store an item at a key, replacing the existing item in
place, appending a fresh row otherwise. -/
def putItem : Table → Key → Item → Table
  | [], k, it => [(k, it)]
  | r :: rs, k, it => if r.1 = k then (k, it) :: rs else r :: putItem rs k it

/-- `delete_item`: remove the item at a key; a no-op when the key is
absent. -/
def deleteItem : Table → Key → Table
  | [], _ => []
  | r :: rs, k => if r.1 = k then deleteItem rs k else r :: deleteItem rs k

/-- Delete a list of keys one by one. -/
def deleteKeys (t : Table) (ks : List Key) : Table :=
  ks.foldl deleteItem t

/-- Does `p` occur as a prefix of `s`?  (`begins_with` in key condition
expressions, `starts_with` on Rust strings.) -/
def strHasPre (p s : String) : Bool :=
  p.data.isPrefixOf s.data

/-- Rust's `str::strip_prefix`: the remainder of `s` after the prefix `p`,
when `p` is a prefix of `s`. -/
def strStrip (p s : String) : Option String :=
  if p.data.isPrefixOf s.data then some (String.mk (s.data.drop p.data.length))
  else none

/-- `query(pk, sk_prefix)`: all rows whose partition key equals `pk` and
whose sort key begins with the given prefix, in store order. -/
def query : Table → String → String → List (Key × Item)
  | [], _, _ => []
  | r :: rs, pk, pre =>
      if r.1.1 = pk ∧ strHasPre pre r.1.2 then r :: query rs pk pre
      else query rs pk pre

/-- `update_item` with expression `SET f = f + :delta`: the store's atomic
numeric increment.  It fails (ValidationException) when the item is absent
or the attribute is absent or non-numeric, and never creates the item. -/
def updateAdd (t : Table) (k : Key) (f : String) (d : Int) :
    Except String Table :=
  match getItem t k with
  | none => Except.error "DynamoDB update_item error: ValidationException"
  | some it =>
    match getAttr it f with
    | some (AttrVal.N n) =>
        Except.ok (putItem t k (setAttr it f (AttrVal.N (n + d))))
    | _ => Except.error "DynamoDB update_item error: ValidationException"

/-- `update_item` with expression `SET f1 = :v1, f2 = :v2, ...`: plain
assignments.  The store upserts: a missing item is created holding exactly
the assigned attributes. -/
def updateSet (t : Table) (k : Key) (fs : List Attr) : Table :=
  match getItem t k with
  | none => putItem t k fs
  | some it => putItem t k (setAttrs it fs)

/-! ## Effect model

Each repository operation is a sequence of independent network calls to
the store.  A run is parametrised by an environment carrying fault
injection (which call indices fail with a network error), the store's
unprocessed-item reports for batch writes, and the generated id and
timestamp.  The state carries the table, the log of successfully applied
store mutations (in order), and the number of network calls made. -/

/-- A store mutation as it appears in the log of a run. -/
inductive Op where
  | put (k : Key) (it : Item)
  | updAdd (k : Key) (f : String) (d : Int)
  | updSet (k : Key) (fs : List Attr)
  | del (k : Key)
  | batchDel (ks : List Key)
  | sleepMs (ms : Nat)
deriving DecidableEq, Repr

/-- Run environment: fault oracle, unprocessed-items oracle for batch
writes (per call index), and the generated uuid / timestamp. -/
structure Env where
  faults : Nat → Bool
  unproc : Nat → List Key
  newId : String
  now : String

/-- Run state: current table, log of applied mutations, calls made. -/
structure St where
  tbl : Table
  ops : List Op
  calls : Nat
deriving DecidableEq, Repr

/-- The effect monad: environment plus state plus string errors; an error
carries the state at the failure point (applied effects are kept, never
rolled back). -/
abbrev M (α : Type) := Env → St → Except (String × St) (α × St)

instance : Monad M where
  pure a := fun _ s => Except.ok (a, s)
  bind x f := fun env s =>
    match x env s with
    | Except.ok (a, s') => f a env s'
    | Except.error es => Except.error es

/-- Fail with a message (a domain error such as "Task not found"). -/
def errM {α : Type} (e : String) : M α :=
  fun _ s => Except.error (e, s)

/-- Read the environment. -/
def askEnv : M Env :=
  fun env s => Except.ok (env, s)

/-- Lift a pure `Except` (e.g. payload parsing) into the monad. -/
def liftEx {α : Type} (e : Except String α) : M α :=
  fun _ s =>
    match e with
    | Except.ok a => Except.ok (a, s)
    | Except.error m => Except.error (m, s)

/-- One network call: consume a call index; an injected fault produces a
network error and leaves the table and log untouched; otherwise the
call's own semantics run.  The action receives the call's index. -/
def netCall {α : Type} (emsg : String)
    (act : Env → Nat → St → Except String (α × St)) : M α :=
  fun env s =>
    let i := s.calls
    let s1 : St := { s with calls := i + 1 }
    if env.faults i then Except.error (emsg, s1)
    else
      match act env i s1 with
      | Except.ok (a, s2) => Except.ok (a, s2)
      | Except.error e => Except.error (e, s1)

/-- `get_item` call. -/
def doGet (k : Key) : M (Option Item) :=
  netCall "DynamoDB get_item error: network" (fun _ _ s =>
    Except.ok (getItem s.tbl k, s))

/-- `query` call. -/
def doQuery (pk pre : String) : M (List (Key × Item)) :=
  netCall "DynamoDB query error: network" (fun _ _ s =>
    Except.ok (query s.tbl pk pre, s))

/-- `put_item` call. -/
def doPut (k : Key) (it : Item) : M Unit :=
  netCall "DynamoDB put_item error: network" (fun _ _ s =>
    Except.ok ((), { s with tbl := putItem s.tbl k it,
                            ops := s.ops ++ [Op.put k it] }))

/-- `update_item` call with an atomic increment expression. -/
def doUpdAdd (k : Key) (f : String) (d : Int) : M Unit :=
  netCall "DynamoDB update_item error: network" (fun _ _ s =>
    match updateAdd s.tbl k f d with
    | Except.ok t =>
        Except.ok ((), { s with tbl := t, ops := s.ops ++ [Op.updAdd k f d] })
    | Except.error e => Except.error e)

/-- `update_item` call with plain `SET` assignments. -/
def doUpdSet (k : Key) (fs : List Attr) : M Unit :=
  netCall "DynamoDB update_item error: network" (fun _ _ s =>
    Except.ok ((), { s with tbl := updateSet s.tbl k fs,
                            ops := s.ops ++ [Op.updSet k fs] }))

/-- `delete_item` call. -/
def doDel (k : Key) : M Unit :=
  netCall "DynamoDB delete_item error: network" (fun _ _ s =>
    Except.ok ((), { s with tbl := deleteItem s.tbl k,
                            ops := s.ops ++ [Op.del k] }))

/-- `batch_write_item` call submitting delete requests for `ks`.  The
store deletes the submitted keys except those it reports unprocessed
(chosen by the environment's oracle, always a subset of the submission)
and returns the unprocessed keys. -/
def doBatchWrite (ks : List Key) : M (List Key) :=
  netCall "DynamoDB batch_write_item error: network" (fun env i s =>
    let u := (env.unproc i).filter (fun k => ks.contains k)
    let processed := ks.filter (fun k => !u.contains k)
    Except.ok (u, { s with tbl := deleteKeys s.tbl processed,
                           ops := s.ops ++ [Op.batchDel ks] }))

/-- `tokio::time::sleep`: logged, no store effect, not a network call. -/
def doSleep (ms : Nat) : M Unit :=
  fun _ s => Except.ok ((), { s with ops := s.ops ++ [Op.sleepMs ms] })

/-- The fault-free, everything-processed environment. -/
def okEnv (newId now : String) : Env :=
  { faults := fun _ => false, unproc := fun _ => [], newId := newId, now := now }

/-- Start a run of `m` on table `t` with an empty log. -/
def runM {α : Type} (m : M α) (env : Env) (t : Table) :
    Except (String × St) (α × St) :=
  m env { tbl := t, ops := [], calls := 0 }

/-! ## Entity keys

Key construction mirrors the `format!` calls of the services. -/

/-- Key of a block row: `PK = "BLOCK"`, `SK = "BLOCK#<block_id>"`. -/
def blockKey (blockId : String) : Key :=
  ("BLOCK", "BLOCK#" ++ blockId)

/-- Key of a task row: `PK = "BLOCK#<block_id>"`, `SK = "TASK#<task_id>"`. -/
def taskKey (blockId taskId : String) : Key :=
  ("BLOCK#" ++ blockId, "TASK#" ++ taskId)

/-- Key of an image row: `PK = "BLOCK#<block_id>"`, `SK = "IMAGE#<image_id>"`. -/
def imageKey (blockId imageId : String) : Key :=
  ("BLOCK#" ++ blockId, "IMAGE#" ++ imageId)

/-- Key of an annotation row: `PK = "IMAGE#<image_id>"`,
`SK = "ANNOTATION#<annotation_id>"`. -/
def annKey (imageId annotationId : String) : Key :=
  ("IMAGE#" ++ imageId, "ANNOTATION#" ++ annotationId)

/-- Key of a label row: `PK = "BLOCK#<block_id>"`, `SK = "LABEL#<label_id>"`. -/
def labelKey (blockId labelId : String) : Key :=
  ("BLOCK#" ++ blockId, "LABEL#" ++ labelId)

/-! ## Attribute readers

These mirror the `item.get(..).and_then(..).unwrap_or(..)` chains of the
services. -/

/-- String attribute with empty-string default
(`.and_then(as_s).map(to_string).unwrap_or_default()`). -/
def parseStrD (v : Option AttrVal) : String :=
  match v with
  | some (AttrVal.S s) => s
  | _ => ""

/-- Optional string attribute (`.and_then(as_s).map(to_string)`). -/
def parseStrOpt (v : Option AttrVal) : Option String :=
  match v with
  | some (AttrVal.S s) => some s
  | _ => none

/-- Bool attribute with `false` default. -/
def parseBoolD (v : Option AttrVal) : Bool :=
  match v with
  | some (AttrVal.B b) => b
  | _ => false

/-- `u32` counter attribute with `0` default
(`.and_then(as_n).and_then(parse::<u32>).unwrap_or(0)`): a number outside
the u32 range fails to parse and falls back to 0. -/
def parseU32 (v : Option AttrVal) : Nat :=
  match v with
  | some (AttrVal.N n) => if 0 ≤ n ∧ n < 4294967296 then n.toNat else 0
  | _ => 0

/-- Optional `i32` attribute (`.and_then(as_n).and_then(parse::<i32>)`). -/
def parseI32opt (v : Option AttrVal) : Option Int :=
  match v with
  | some (AttrVal.N n) =>
      if -2147483648 ≤ n ∧ n < 2147483648 then some n else none
  | _ => none

/-! ## Entity records (domain models) -/

/-- `Image` domain model (`src/atoms/src/media/model.rs`). -/
structure ImageR where
  image_id : String
  block_id : String
  task_id : Option String
  url : String
  locked : Bool
  order : Option Int
  annotation_count : Nat
  uploaded_at : String
deriving DecidableEq, Repr

/-- `Task` domain model (`src/atoms/src/tasks/model.rs`). -/
structure TaskR where
  task_id : String
  block_id : String
  task_name : String
  task_state : String
  assignee : String
  checked_by : String
  locked : Bool
  image_count : Nat
  created_at : String
  images : List ImageR
deriving DecidableEq, Repr

/-- `Annotation` domain model (`src/atoms/src/drawing/model.rs`).  The
geometry is stored and carried as its serialized string form; its JSON
structure is never inspected by the operations under verification. -/
structure AnnotationR where
  annotation_id : String
  image_id : String
  label_id : String
  geometry : String
  created_by : String
  created_at : String
  updated_at : Option String
deriving DecidableEq, Repr

/-- Parse a task row into the `Task` model, as in `get_task` /
`load_tasks_for_block`. -/
def parseTaskItem (blockId taskId : String) (it : Item) : TaskR :=
  { task_id := taskId
    block_id := blockId
    task_name := parseStrD (getAttr it "task_name")
    task_state := parseStrD (getAttr it "task_state")
    assignee := parseStrD (getAttr it "assignee")
    checked_by := parseStrD (getAttr it "checked_by")
    locked := parseBoolD (getAttr it "locked")
    image_count := parseU32 (getAttr it "image_count")
    created_at := parseStrD (getAttr it "created_at")
    images := [] }

/-- Parse an image row into the `Image` model, as in `get_image` /
`load_images_for_block`. -/
def parseImageItem (blockId imageId : String) (it : Item) : ImageR :=
  { image_id := imageId
    block_id := blockId
    task_id := parseStrOpt (getAttr it "task_id")
    url := parseStrD (getAttr it "url")
    locked := parseBoolD (getAttr it "locked")
    order := parseI32opt (getAttr it "order")
    annotation_count := parseU32 (getAttr it "annotation_count")
    uploaded_at := parseStrD (getAttr it "uploaded_at") }

/-! ## Task service (`src/atoms/src/tasks/service.rs`) -/

/-- `get_task`: read the task row; absent row is the domain error
"Task not found". -/
def get_task (blockId taskId : String) : M TaskR := do
  let r ← doGet (taskKey blockId taskId)
  match r with
  | some it => pure (parseTaskItem blockId taskId it)
  | none => errM "Task not found"

/-- `UpdateTaskPayload`. -/
structure UpdateTaskPayload where
  task_name : Option String
  task_state : Option String
  assignee : Option String
  checked_by : Option String
deriving Repr

/-- The sparse field-update list built by `update_task`, in the source's
push order. -/
def updateTaskFields (p : UpdateTaskPayload) : List Attr :=
  (match p.task_name with
   | some v => [("task_name", AttrVal.S v)]
   | none => []) ++
  (match p.task_state with
   | some v => [("task_state", AttrVal.S v)]
   | none => []) ++
  (match p.assignee with
   | some v => [("assignee", AttrVal.S v)]
   | none => []) ++
  (match p.checked_by with
   | some v => [("checked_by", AttrVal.S v)]
   | none => [])

/-- The `approved_image_count` delta of a task state transition, from the
`match (&*old_task_state, new_state)` of `update_task`: done→done is 0,
done→other is the negated old image count, other→done is the old image
count, anything else 0. -/
def taskStateDelta (old_task_state new_state : String)
    (old_task_image_count : Int) : Int :=
  if old_task_state == "done" && new_state == "done" then 0
  else if old_task_state == "done" then -old_task_image_count
  else if new_state == "done" then old_task_image_count
  else 0

/-- `update_task`: read the old task (for the approved-counter delta),
then — when the payload is non-empty — first apply the conditional
`approved_image_count` delta on the block row (only when non-zero), then
write the sparse task update, and finally re-read the task. -/
def update_task (blockId taskId : String) (p : UpdateTaskPayload) :
    M TaskR := do
  let old ← get_task blockId taskId
  let old_task_state := old.task_state
  let old_task_image_count : Int := old.image_count
  let fields := updateTaskFields p
  (if fields.isEmpty then pure () else do
    (match p.task_state with
     | some new_state =>
        let delta : Int :=
          taskStateDelta old_task_state new_state old_task_image_count
        if delta != 0 then
          doUpdAdd (blockKey blockId) "approved_image_count" delta
        else pure ()
     | none => pure ())
    doUpdSet (taskKey blockId taskId) fields)
  get_task blockId taskId

/-! ## Drawing (annotation) service (`src/atoms/src/drawing/service.rs`) -/

/-- Parse the annotation rows of a query result, as in the loop of
`list_annotations`: a row with an unparsable sort key is skipped; a row
without a string `geometry` attribute aborts with "Missing geometry"
(the serialized geometry itself is carried verbatim). -/
def parseAnns (imageId : String) (rows : List (Key × Item)) :
    Except String (List AnnotationR) :=
  match rows with
  | [] => Except.ok []
  | r :: rest =>
    match strStrip "ANNOTATION#" r.1.2 with
    | some annotationId =>
      match getAttr r.2 "geometry" with
      | some (AttrVal.S g) =>
        (parseAnns imageId rest).map (fun l =>
          { annotation_id := annotationId
            image_id := imageId
            label_id :=
              (match getAttr r.2 "label_id" with
               | some (AttrVal.S s) => s
               | _ => "default")
            geometry := g
            created_by := parseStrD (getAttr r.2 "created_by")
            created_at := parseStrD (getAttr r.2 "created_at")
            updated_at := parseStrOpt (getAttr r.2 "updated_at") } :: l)
      | _ => Except.error "Missing geometry"
    | none => parseAnns imageId rest

/-- `list_annotations`: query the image's partition for annotation rows
and parse them. -/
def list_annotations (imageId : String) : M (List AnnotationR) := do
  let rows ← doQuery ("IMAGE#" ++ imageId) "ANNOTATION#"
  liftEx (parseAnns imageId rows)

/-- `delete_annotation`: delete the annotation row, then decrement the
block's `annotation_count`, then the image's `annotation_count`. -/
def delete_annotation (blockId imageId annotationId : String) : M Unit := do
  doDel (annKey imageId annotationId)
  doUpdAdd (blockKey blockId) "annotation_count" (-1)
  doUpdAdd (imageKey blockId imageId) "annotation_count" (-1)

/-- `UpdateAnnotationPayload`; the optional geometry is carried in its
serialized form. -/
structure UpdateAnnotationPayload where
  label_id : Option String
  geometry : Option String
deriving Repr

/-- The field list built by `update_annotation`: the `updated_at` stamp
unconditionally first, then the optional label and geometry. -/
def updateAnnFields (p : UpdateAnnotationPayload) (now : String) :
    List Attr :=
  [("updated_at", AttrVal.S now)] ++
  (match p.label_id with
   | some v => [("label_id", AttrVal.S v)]
   | none => []) ++
  (match p.geometry with
   | some g => [("geometry", AttrVal.S g)]
   | none => [])

/-- `update_annotation`: one sparse update that always stamps
`updated_at`, even for an empty payload. -/
def update_annotation (imageId annotationId : String)
    (p : UpdateAnnotationPayload) : M Unit := do
  let env ← askEnv
  doUpdSet (annKey imageId annotationId) (updateAnnFields p env.now)

/-! ## Media (image) service (`src/atoms/src/media/service.rs`) -/

/-- Rust's `Ord::cmp` on integers. -/
def intCmp (x y : Int) : Ordering :=
  if x < y then Ordering.lt
  else if x = y then Ordering.eq
  else Ordering.gt

/-- The comparator of `load_images_for_block`'s `sort_by`: present
`order` values ascending, `None` after every present value, two `None`s
equal-ranked. -/
def imgCmp (a b : ImageR) : Ordering :=
  match a.order, b.order with
  | some x, some y => intCmp x y
  | some _, none => Ordering.lt
  | none, some _ => Ordering.gt
  | none, none => Ordering.eq

/-- Stable insertion into a sorted list: skip over strictly smaller
elements, insert before the first element not smaller (so an element
equal to `x` stays after `x`, preserving input order). -/
def insertImg (x : ImageR) : List ImageR → List ImageR
  | [] => [x]
  | y :: ys =>
      if imgCmp x y = Ordering.gt then y :: insertImg x ys
      else x :: y :: ys

/-- Stable insertion sort by `imgCmp`.  Rust's `slice::sort_by` is a
stable sort; for the total preorder induced by `imgCmp` every stable sort
produces this same sequence. -/
def sortImages : List ImageR → List ImageR
  | [] => []
  | x :: xs => insertImg x (sortImages xs)

/-- Parse the image rows of a query result, in store order, as in the
loop of `load_images_for_block`. -/
def parseImages (blockId : String) (rows : List (Key × Item)) :
    List ImageR :=
  rows.filterMap (fun r =>
    (strStrip "IMAGE#" r.1.2).map (fun imageId =>
      parseImageItem blockId imageId r.2))

/-- `load_images_for_block`: query the block's image rows, parse them,
and sort by the optional `order` field. -/
def load_images_for_block (blockId : String) : M (List ImageR) := do
  let rows ← doQuery ("BLOCK#" ++ blockId) "IMAGE#"
  pure (sortImages (parseImages blockId rows))

/-- `load_images_for_task`: the block's images filtered to one task. -/
def load_images_for_task (blockId taskId : String) : M (List ImageR) := do
  let all ← load_images_for_block blockId
  pure (all.filter (fun img => img.task_id == some taskId))

/-- `CreateImagePayload`. -/
structure CreateImagePayload where
  url : String
  task_id : Option String
  order : Option Int
deriving Repr

/-- The primary item written by `create_image`. -/
def createImageItem (p : CreateImagePayload) (now : String) : Item :=
  [("url", AttrVal.S p.url), ("locked", AttrVal.B false),
   ("annotation_count", AttrVal.N 0), ("uploaded_at", AttrVal.S now)] ++
  (match p.task_id with
   | some t => [("task_id", AttrVal.S t)]
   | none => []) ++
  (match p.order with
   | some o => [("order", AttrVal.N o)]
   | none => [])

/-- `create_image`: write the image item, increment the block's
`image_count`, and — when the payload names a task — increment that
task's `image_count`, re-read the task, and bump the block's
`approved_image_count` when the task is currently "done" (its re-read
`image_count` being positive). -/
def create_image (blockId : String) (p : CreateImagePayload) : M ImageR := do
  let env ← askEnv
  let image_id := env.newId
  let now := env.now
  doPut (imageKey blockId image_id) (createImageItem p now)
  doUpdAdd (blockKey blockId) "image_count" 1
  (match p.task_id with
   | some task_id => do
      doUpdAdd (taskKey blockId task_id) "image_count" 1
      let task ← get_task blockId task_id
      if 0 < task.image_count ∧ task.task_state = "done" then
        doUpdAdd (blockKey blockId) "approved_image_count" 1
      else pure ()
   | none => pure ())
  pure { image_id := image_id, block_id := blockId, task_id := p.task_id,
         url := p.url, locked := false, order := p.order,
         annotation_count := 0, uploaded_at := now }

/-- `get_image`: read the image row; absent row is the domain error
"Image not found". -/
def get_image (blockId imageId : String) : M ImageR := do
  let r ← doGet (imageKey blockId imageId)
  match r with
  | some it => pure (parseImageItem blockId imageId it)
  | none => errM "Image not found"

/-- `UpdateImagePayload`. -/
structure UpdateImagePayload where
  locked : Option Bool
  order : Option Int
deriving Repr

/-- The sparse field-update list built by `update_image`, in the source's
push order. -/
def updateImageFields (p : UpdateImagePayload) : List Attr :=
  (match p.locked with
   | some v => [("locked", AttrVal.B v)]
   | none => []) ++
  (match p.order with
   | some v => [("order", AttrVal.N v)]
   | none => [])

/-- `update_image`: when the payload is non-empty, one blind sparse
update of the image row (no prior read), then a re-read of the row. -/
def update_image (blockId imageId : String) (p : UpdateImagePayload) :
    M ImageR := do
  let fields := updateImageFields p
  (if fields.isEmpty then pure ()
   else doUpdSet (imageKey blockId imageId) fields)
  get_image blockId imageId

/-- `delete_image`: read the image, decrement the block's `image_count`,
then — when the image names a task — decrement the task's `image_count`,
re-read the task and decrement the block's `approved_image_count` when
that task is "done"; then delete every annotation of the image (each
decrementing the block's and the image's `annotation_count`), and finally
delete the image row. -/
def delete_image (blockId imageId : String) : M Unit := do
  let image ← get_image blockId imageId
  doUpdAdd (blockKey blockId) "image_count" (-1)
  (match image.task_id with
   | some task_id => do
      doUpdAdd (taskKey blockId task_id) "image_count" (-1)
      let task ← get_task blockId task_id
      if task.task_state = "done" then
        doUpdAdd (blockKey blockId) "approved_image_count" (-1)
      else pure ()
   | none => pure ())
  let anns ← list_annotations imageId
  anns.forM (fun a => delete_annotation blockId imageId a.annotation_id)
  doDel (imageKey blockId imageId)

/-! ## Block and label update paths
(`src/blocks/annotations/src/blocks.rs`, `labels.rs`)

Only the store effects are modelled; HTTP response marshalling is out of
scope.  Each update builds a sparse assignment list and ends with the
entity re-read of `get_block` / `get_label`. -/

/-- `UpdateBlockPayload`. -/
structure UpdateBlockPayload where
  block_name : Option String
  block_state : Option String
  block_locked : Option Bool
deriving Repr

/-- The sparse field-update list built by `update_block`. -/
def updateBlockFields (p : UpdateBlockPayload) : List Attr :=
  (match p.block_name with
   | some v => [("block_name", AttrVal.S v)]
   | none => []) ++
  (match p.block_state with
   | some v => [("block_state", AttrVal.S v)]
   | none => []) ++
  (match p.block_locked with
   | some v => [("block_locked", AttrVal.B v)]
   | none => [])

/-- `update_block`: optional sparse update of the block row, then the
`get_block` re-read (which also fetches the block's labels when the row
exists). -/
def update_block (blockId : String) (p : UpdateBlockPayload) :
    M (Option Item) := do
  let fields := updateBlockFields p
  (if fields.isEmpty then pure ()
   else doUpdSet (blockKey blockId) fields)
  let r ← doGet (blockKey blockId)
  match r with
  | some it => do
      let _labels ← doQuery ("BLOCK#" ++ blockId) "LABEL#"
      pure (some it)
  | none => pure none

/-- `UpdateLabelPayload`; the optional properties are carried in their
serialized form. -/
structure UpdateLabelPayload where
  label_name : Option String
  label_color : Option String
  label_properties : Option String
deriving Repr

/-- The sparse field-update list built by `update_label` (the payload's
`label_name` is stored under the attribute name `name`). -/
def updateLabelFields (p : UpdateLabelPayload) : List Attr :=
  (match p.label_name with
   | some v => [("name", AttrVal.S v)]
   | none => []) ++
  (match p.label_color with
   | some v => [("label_color", AttrVal.S v)]
   | none => []) ++
  (match p.label_properties with
   | some v => [("label_properties", AttrVal.S v)]
   | none => [])

/-- `update_label`: optional sparse update of the label row, then the
`get_label` re-read. -/
def update_label (blockId labelId : String) (p : UpdateLabelPayload) :
    M (Option Item) := do
  let fields := updateLabelFields p
  (if fields.isEmpty then pure ()
   else doUpdSet (labelKey blockId labelId) fields)
  doGet (labelKey blockId labelId)

/-! ## Cascade deletion orchestrator
(`src/blocks/annotations/src/blocks.rs`) -/

/-- `add_delete_key`: append one (PK, SK) pair to the collected keys. -/
def add_delete_key (ks : List Key) (pk sk : String) : List Key :=
  ks ++ [(pk, sk)]

/-- `delete_task_images`: query `PK = <task_pk>` for `IMAGE#` rows and
collect their keys.  (Image rows are in fact stored under the block's
partition, so for stores written by this backend the query finds
nothing.) -/
def delete_task_images (taskPk : String) (ks : List Key) : M (List Key) := do
  let rows ← doQuery taskPk "IMAGE#"
  pure (rows.foldl (fun acc r => add_delete_key acc taskPk r.1.2) ks)

/-- The second loop of `delete_tasks`: for each collected task sort key,
collect its per-task image keys and then the `(task_pk, task_pk)` pair. -/
def deleteTasksLoop (taskPks : List String) (ks : List Key) :
    M (List Key) :=
  match taskPks with
  | [] => pure ks
  | t :: rest => do
      let ks1 ← delete_task_images t ks
      deleteTasksLoop rest (add_delete_key ks1 t t)

/-- `delete_tasks`: query the block's `TASK#` rows, collect each task's
key, then run the per-task image collection loop. -/
def delete_tasks (blockPk : String) (ks : List Key) : M (List Key) := do
  let rows ← doQuery blockPk "TASK#"
  let taskPks := rows.filterMap (fun r =>
    if strHasPre "TASK#" r.1.2 then some r.1.2 else none)
  let ks1 := rows.foldl (fun acc r =>
    if strHasPre "TASK#" r.1.2 then add_delete_key acc blockPk r.1.2
    else acc) ks
  deleteTasksLoop taskPks ks1

/-- `delete_labels`: query the block's `LABEL#` rows and collect their
keys. -/
def delete_labels (blockPk : String) (ks : List Key) : M (List Key) := do
  let rows ← doQuery blockPk "LABEL#"
  pure (rows.foldl (fun acc r => add_delete_key acc blockPk r.1.2) ks)

/-- `delete_annotations`: query `PK = <image_pk>` for `ANNOTATION#` rows
and collect their keys. -/
def delete_annotations (imagePk : String) (ks : List Key) :
    M (List Key) := do
  let rows ← doQuery imagePk "ANNOTATION#"
  pure (rows.foldl (fun acc r => add_delete_key acc imagePk r.1.2) ks)

/-- The second loop of `delete_block_images`: for each collected image
sort key, collect its annotation keys and then the
`(image_pk, image_pk)` pair. -/
def deleteBlockImagesLoop (imagePks : List String) (ks : List Key) :
    M (List Key) :=
  match imagePks with
  | [] => pure ks
  | i :: rest => do
      let ks1 ← delete_annotations i ks
      deleteBlockImagesLoop rest (add_delete_key ks1 i i)

/-- `delete_block_images`: query the block's `IMAGE#` rows (all images of
the block, task-attached or not, live under the block's partition),
collect each image's key, then collect their annotations. -/
def delete_block_images (blockPk : String) (ks : List Key) :
    M (List Key) := do
  let rows ← doQuery blockPk "IMAGE#"
  let imagePks := rows.filterMap (fun r =>
    if strHasPre "IMAGE#" r.1.2 then some r.1.2 else none)
  let ks1 := rows.foldl (fun acc r =>
    if strHasPre "IMAGE#" r.1.2 then add_delete_key acc blockPk r.1.2
    else acc) ks
  deleteBlockImagesLoop imagePks ks1

/-- `delete_block_record`: append the block row's own key. -/
def delete_block_record (blockId : String) (ks : List Key) : List Key :=
  ks ++ [("BLOCK", "BLOCK#" ++ blockId)]

/-- `slice::chunks(25)`: split the collected keys into runs of at most
25. -/
def chunks25 (l : List Key) : List (List Key) :=
  match l with
  | [] => []
  | x :: xs => (x :: xs.take 24) :: chunks25 (xs.drop 24)
termination_by l.length
decreasing_by simp; omega

/-- The retry loop of `batch_delete_items` for one chunk, entered with
`attemptsDone` attempts already made: submit, and while the store reports
unprocessed items and fewer than 5 attempts have been made, sleep
`100ms × attempts` and resubmit exactly the unprocessed items; once 5
attempts are reached remaining unprocessed items are dropped without
error. -/
def batchLoop (reqs : List Key) (attemptsDone : Nat) : M Unit := do
  let attempts := attemptsDone + 1
  let u ← doBatchWrite reqs
  if u.isEmpty then pure ()
  else if h : attempts < 5 then do
    doSleep (100 * attempts)
    batchLoop u attempts
  else pure ()
termination_by 5 - attemptsDone
decreasing_by omega

/-- `batch_delete_items`: process the collected keys in chunks of 25,
each with the bounded retry loop; always returns success. -/
def batch_delete_items (ks : List Key) : M Unit :=
  (chunks25 ks).forM (fun chunk => batchLoop chunk 0)

/-- `delete_block`: collect the keys of every task (and per-task image
query), label, image and annotation under the block, then the block's
own key, and batch-delete them all.  (The final best-effort object-store
prefix purge is swallowed by the source and out of the table model.) -/
def delete_block (blockId : String) : M Unit := do
  let blockPk := "BLOCK#" ++ blockId
  let ks ← delete_tasks blockPk []
  let ks ← delete_labels blockPk ks
  let ks ← delete_block_images blockPk ks
  let ks := delete_block_record blockId ks
  batch_delete_items ks

/-! ## Properties of the image sort -/

/-- The spec's ordering relation on images: ascending by present
`order`, anything before `None`, `None`s equal-ranked. -/
def orderLe (a b : ImageR) : Prop :=
  match a.order, b.order with
  | some x, some y => x ≤ y
  | _, none => True
  | none, some _ => False

theorem intCmp_eq_gt {x y : Int} : intCmp x y = Ordering.gt ↔ y < x := by
  unfold intCmp
  split_ifs <;> simp <;> omega

theorem imgCmp_swap_of_gt {x y : ImageR} (h : imgCmp x y = Ordering.gt) :
    imgCmp y x ≠ Ordering.gt := by
  unfold imgCmp at h ⊢
  rcases hx : x.order with _ | a <;> rcases hy : y.order with _ | b <;>
    simp_all [intCmp_eq_gt] <;> omega

theorem imgCmp_trans_not_gt {x y z : ImageR} (h1 : imgCmp x y ≠ Ordering.gt)
    (h2 : imgCmp y z ≠ Ordering.gt) : imgCmp x z ≠ Ordering.gt := by
  unfold imgCmp at h1 h2 ⊢
  rcases hx : x.order with _ | a <;> rcases hy : y.order with _ | b <;>
    rcases hz : z.order with _ | c <;> simp_all [intCmp_eq_gt] <;> omega

theorem imgCmp_gt_order_ne {x y : ImageR} (h : imgCmp x y = Ordering.gt) :
    x.order ≠ y.order := by
  unfold imgCmp at h
  rcases hx : x.order with _ | a <;> rcases hy : y.order with _ | b <;>
    simp_all [intCmp_eq_gt] <;> omega

theorem orderLe_of_not_gt {x y : ImageR} (h : imgCmp x y ≠ Ordering.gt) :
    orderLe x y := by
  unfold imgCmp at h
  unfold orderLe
  rcases hx : x.order with _ | a <;> rcases hy : y.order with _ | b <;>
    simp_all [intCmp_eq_gt] <;> omega

theorem insertImg_perm (x : ImageR) (l : List ImageR) :
    (insertImg x l).Perm (x :: l) := by
  induction l with
  | nil => simp [insertImg]
  | cons y ys ih =>
    unfold insertImg
    split
    · exact ((ih.cons y).trans (List.Perm.swap x y ys))
    · exact List.Perm.refl _

theorem mem_insertImg {a x : ImageR} {l : List ImageR} :
    a ∈ insertImg x l ↔ a = x ∨ a ∈ l := by
  have := (insertImg_perm x l).mem_iff (a := a)
  simpa using this

theorem insertImg_pairwise {x : ImageR} {l : List ImageR}
    (h : l.Pairwise (fun a b => imgCmp a b ≠ Ordering.gt)) :
    (insertImg x l).Pairwise (fun a b => imgCmp a b ≠ Ordering.gt) := by
  induction l with
  | nil => simp [insertImg]
  | cons y ys ih =>
    rcases List.pairwise_cons.mp h with ⟨hy, hys⟩
    unfold insertImg
    split
    · refine List.pairwise_cons.mpr ⟨?_, ih hys⟩
      intro z hz
      rcases mem_insertImg.mp hz with rfl | hz'
      · exact imgCmp_swap_of_gt (by assumption)
      · exact hy z hz'
    · refine List.pairwise_cons.mpr ⟨?_, h⟩
      intro z hz
      rcases List.mem_cons.mp hz with rfl | hz'
      · assumption
      · exact imgCmp_trans_not_gt (by assumption) (hy z hz')

theorem sortImages_pairwise (l : List ImageR) :
    (sortImages l).Pairwise (fun a b => imgCmp a b ≠ Ordering.gt) := by
  induction l with
  | nil => simp [sortImages]
  | cons x xs ih => exact insertImg_pairwise ih

theorem sortImages_perm (l : List ImageR) : (sortImages l).Perm l := by
  induction l with
  | nil => simp [sortImages]
  | cons x xs ih =>
    exact (insertImg_perm x (sortImages xs)).trans (ih.cons x)

theorem insertImg_filter (x : ImageR) (l : List ImageR) (v : Option Int) :
    (insertImg x l).filter (fun i => i.order == v) =
      if x.order = v then x :: l.filter (fun i => i.order == v)
      else l.filter (fun i => i.order == v) := by
  induction l with
  | nil =>
    by_cases hx : x.order = v <;> simp [insertImg, List.filter_cons, hx]
  | cons y ys ih =>
    unfold insertImg
    split
    · rename_i hgt
      have hne : y.order ≠ x.order := fun he => imgCmp_gt_order_ne hgt he.symm
      by_cases hx : x.order = v
      · have hy : y.order ≠ v := fun he => hne (he.trans hx.symm)
        simp [List.filter_cons, hy, ih, hx]
      · by_cases hyv : y.order = v <;>
          simp [List.filter_cons, hx, hyv, ih]
    · by_cases hx : x.order = v <;>
        simp [List.filter_cons, hx]

theorem sortImages_filter (l : List ImageR) (v : Option Int) :
    (sortImages l).filter (fun i => i.order == v) =
      l.filter (fun i => i.order == v) := by
  induction l with
  | nil => rfl
  | cons x xs ih =>
    unfold sortImages
    rw [insertImg_filter]
    by_cases hx : x.order = v <;> simp [List.filter_cons, hx, ih]

/-- Image literal used by the concrete ordering example. -/
def exImg (id : String) (o : Option Int) : ImageR :=
  { image_id := id, block_id := "b", task_id := none, url := "",
    locked := false, order := o, annotation_count := 0, uploaded_at := "" }

/-- C8: the images returned by `load_images_for_block` are the query's
parsed images stably sorted by the optional `order` field: ascending
where present, every `None` after all present orders, and records of
equal or absent order keeping their input order; on input orders
[3, None, 1, None] the result is order 1, order 3, then the two `None`
records in their original relative order. -/
theorem C8_load_images_order :
    (∀ newId now t b,
      runM (load_images_for_block b) (okEnv newId now) t =
        Except.ok
          (sortImages (parseImages b (query t ("BLOCK#" ++ b) "IMAGE#")),
           { tbl := t, ops := [], calls := 1 })) ∧
    (∀ l : List ImageR, (sortImages l).Pairwise orderLe) ∧
    (∀ (l : List ImageR) (v : Option Int),
      (sortImages l).filter (fun i => i.order == v) =
        l.filter (fun i => i.order == v)) ∧
    (∀ l : List ImageR, (sortImages l).Perm l) ∧
    sortImages
        [exImg "a" (some 3), exImg "b" none, exImg "c" (some 1),
         exImg "d" none] =
      [exImg "c" (some 1), exImg "a" (some 3), exImg "b" none,
       exImg "d" none] := by
  refine ⟨fun newId now t b => rfl, fun l => ?_, sortImages_filter,
    sortImages_perm, by decide⟩
  exact (sortImages_pairwise l).imp (fun h => orderLe_of_not_gt h)

/-! ## Run-evaluation lemmas

`M` is a reducible function type, so the monad operations evaluate
definitionally; these equations let `simp` drive a run forward. -/

theorem bind_def {α β : Type} (x : M α) (f : α → M β) (env : Env) (s : St) :
    (x >>= f) env s =
      match x env s with
      | Except.ok (a, s') => f a env s'
      | Except.error es => Except.error es := rfl

theorem pure_def {α : Type} (a : α) (env : Env) (s : St) :
    (pure a : M α) env s = Except.ok (a, s) := rfl

/-- The simp set driving symbolic evaluation of runs. -/
theorem okEnv_faults (newId now : String) (i : Nat) :
    (okEnv newId now).faults i = false := rfl

theorem okEnv_unproc (newId now : String) (i : Nat) :
    (okEnv newId now).unproc i = [] := rfl

/-! ## Claim C6: NotFound behaviour of read-first update/delete paths

`update_task` and `delete_image` read the entity first and surface
"Task not found" / "Image not found" without any write.  `update_image`
however performs no initial read: with a non-empty payload it blindly
upserts the row and returns success (the NotFound claim fails there);
only an empty-payload `update_image` surfaces "Image not found". -/

/-- C6 (amended): on a missing entity, `update_task`, `delete_image`,
and empty-payload `update_image` return the NotFound error with no write
performed and the table unchanged. -/
theorem C6_notfound_paths :
    (∀ (b t newId now : String) (p : UpdateTaskPayload) (tbl : Table),
      getItem tbl (taskKey b t) = none →
      runM (update_task b t p) (okEnv newId now) tbl =
        Except.error ("Task not found", { tbl := tbl, ops := [], calls := 1 })) ∧
    (∀ (b i newId now : String) (tbl : Table),
      getItem tbl (imageKey b i) = none →
      runM (delete_image b i) (okEnv newId now) tbl =
        Except.error ("Image not found", { tbl := tbl, ops := [], calls := 1 })) ∧
    (∀ (b i newId now : String) (tbl : Table),
      getItem tbl (imageKey b i) = none →
      runM (update_image b i { locked := none, order := none })
          (okEnv newId now) tbl =
        Except.error ("Image not found", { tbl := tbl, ops := [], calls := 1 })) := by
  refine ⟨?_, ?_, ?_⟩
  · intro b t newId now p tbl h
    simp [runM, update_task, get_task, doGet, netCall, errM, bind_def,
      pure_def, okEnv, h]
  · intro b i newId now tbl h
    simp [runM, delete_image, get_image, doGet, netCall, errM, bind_def,
      pure_def, okEnv, h]
  · intro b i newId now tbl h
    simp [runM, update_image, get_image, updateImageFields, doGet, netCall,
      errM, bind_def, pure_def, okEnv, h]

/-- C6 witness: the NotFound paths at a concrete missing task. -/
theorem C6_notfound_paths_witness :
    getItem [] (taskKey "b" "t") = none ∧
    runM (update_task "b" "t"
        { task_name := none, task_state := some "done",
          assignee := none, checked_by := none }) (okEnv "id" "ts") [] =
      Except.error ("Task not found", { tbl := [], ops := [], calls := 1 }) :=
  ⟨rfl, C6_notfound_paths.1 "b" "t" "id" "ts" _ [] rfl⟩

/-- C6 counterexample: `update_image` with a non-empty payload on a
missing image does not return NotFound — it blindly upserts the row and
returns success with a write in the log. -/
theorem C6_update_image_blind_write :
    runM (update_image "b" "i" { locked := some true, order := none })
        (okEnv "id" "ts") [] =
      Except.ok
        ({ image_id := "i", block_id := "b", task_id := none, url := "",
           locked := true, order := none, annotation_count := 0,
           uploaded_at := "" },
         { tbl := [(("BLOCK#" ++ "b", "IMAGE#" ++ "i"),
                    [("locked", AttrVal.B true)])],
           ops := [Op.updSet ("BLOCK#" ++ "b", "IMAGE#" ++ "i")
                    [("locked", AttrVal.B true)]],
           calls := 2 }) := by
  rfl

/-! ## Primitive store lemmas -/

theorem getItem_putItem (t : Table) (k k' : Key) (it : Item) :
    getItem (putItem t k it) k' = if k' = k then some it else getItem t k' := by
  induction t with
  | nil =>
    by_cases hk : k' = k
    · simp [putItem, getItem, hk]
    · have hk2 : ¬k = k' := fun he => hk he.symm
      simp [putItem, getItem, hk, hk2]
  | cons r rs ih =>
    by_cases hr : r.1 = k
    · by_cases hk : k' = k
      · subst hk
        simp [putItem, getItem, hr]
      · have hk2 : ¬k = k' := fun he => hk he.symm
        simp [putItem, getItem, hr, hk, hk2]
    · by_cases hk : k' = k
      · subst hk
        simp [putItem, getItem, hr, ih]
      · simp [putItem, getItem, hr, hk, ih]

theorem getItem_putItem_self (t : Table) (k : Key) (it : Item) :
    getItem (putItem t k it) k = some it := by
  simp [getItem_putItem]

theorem getItem_putItem_ne (t : Table) {k k' : Key} (it : Item)
    (h : k' ≠ k) : getItem (putItem t k it) k' = getItem t k' := by
  simp [getItem_putItem, h]

theorem getItem_deleteItem (t : Table) (k k' : Key) :
    getItem (deleteItem t k) k' = if k' = k then none else getItem t k' := by
  induction t with
  | nil => by_cases hk : k' = k <;> simp [deleteItem, getItem, hk]
  | cons r rs ih =>
    by_cases hr : r.1 = k
    · by_cases hk : k' = k
      · subst hk
        simp [deleteItem, getItem, hr, ih]
      · have hk2 : ¬k = k' := fun he => hk he.symm
        simp [deleteItem, getItem, hr, hk, hk2, ih]
    · by_cases hk : k' = k
      · subst hk
        simp [deleteItem, getItem, hr, ih]
      · simp [deleteItem, getItem, hr, hk, ih]

theorem getItem_deleteItem_self (t : Table) (k : Key) :
    getItem (deleteItem t k) k = none := by
  simp [getItem_deleteItem]

theorem getItem_deleteItem_ne (t : Table) {k k' : Key} (h : k' ≠ k) :
    getItem (deleteItem t k) k' = getItem t k' := by
  simp [getItem_deleteItem, h]

theorem getAttr_setAttr (it : Item) (f f' : String) (v : AttrVal) :
    getAttr (setAttr it f v) f' = if f' = f then some v else getAttr it f' := by
  induction it with
  | nil =>
    by_cases hf : f' = f
    · simp [setAttr, getAttr, hf]
    · have hf2 : ¬f = f' := fun he => hf he.symm
      simp [setAttr, getAttr, hf, hf2]
  | cons a as ih =>
    by_cases ha : a.1 = f
    · by_cases hf : f' = f
      · subst hf
        simp [setAttr, getAttr, ha]
      · have hf2 : ¬f = f' := fun he => hf he.symm
        simp [setAttr, getAttr, ha, hf, hf2]
    · by_cases hf : f' = f
      · subst hf
        simp [setAttr, getAttr, ha, ih]
      · simp [setAttr, getAttr, ha, hf, ih]

theorem getAttr_setAttr_self (it : Item) (f : String) (v : AttrVal) :
    getAttr (setAttr it f v) f = some v := by
  simp [getAttr_setAttr]

theorem getAttr_setAttr_ne (it : Item) {f f' : String} (v : AttrVal)
    (h : f' ≠ f) : getAttr (setAttr it f v) f' = getAttr it f' := by
  simp [getAttr_setAttr, h]

theorem getItem_updateSet (t : Table) (k k' : Key) (fs : List Attr) :
    getItem (updateSet t k fs) k' =
      if k' = k then
        some (match getItem t k with
              | none => fs
              | some it => setAttrs it fs)
      else getItem t k' := by
  unfold updateSet
  rcases h : getItem t k with _ | it <;> simp [getItem_putItem, h] <;>
    split <;> simp_all

theorem updateAdd_of_num {t : Table} {k : Key} {f : String} {it : Item}
    {n : Int} (hit : getItem t k = some it)
    (hf : getAttr it f = some (AttrVal.N n)) (d : Int) :
    updateAdd t k f d =
      Except.ok (putItem t k (setAttr it f (AttrVal.N (n + d)))) := by
  simp [updateAdd, hit, hf]

theorem updateAdd_missing {t : Table} {k : Key} (f : String) (d : Int)
    (h : getItem t k = none) :
    updateAdd t k f d =
      Except.error "DynamoDB update_item error: ValidationException" := by
  unfold updateAdd
  rw [h]

/-! ## Claim C7: `updated_at` stamping -/

/-- Does a logged mutation write the given field? -/
def opWritesField (f : String) : Op → Bool
  | Op.updSet _ fs => fs.any (fun a => a.1 == f)
  | Op.put _ it => it.any (fun a => a.1 == f)
  | _ => false

/-- The state a run ends in, whether it succeeded or failed. -/
def stOf {α : Type} (r : Except (String × St) (α × St)) : St :=
  match r with
  | Except.ok (_, s) => s
  | Except.error (_, s) => s

theorem getAttr_setAttrs_not_mem (fs : List Attr) (it : Item) (f : String)
    (h : ∀ a ∈ fs, a.1 ≠ f) : getAttr (setAttrs it fs) f = getAttr it f := by
  induction fs generalizing it with
  | nil => rfl
  | cons a as ih =>
    have ha : a.1 ≠ f := h a (List.mem_cons_self a as)
    have hrest : ∀ b ∈ as, b.1 ≠ f := fun b hb => h b (List.mem_cons_of_mem a hb)
    show getAttr (setAttrs (setAttr it a.1 a.2) as) f = getAttr it f
    rw [ih (setAttr it a.1 a.2) hrest,
        getAttr_setAttr_ne it a.2 (fun he => ha he.symm)]

theorem updateImageFields_no_updated_at (p : UpdateImagePayload) :
    (updateImageFields p).all (fun a => a.1 != "updated_at") = true := by
  rcases p with ⟨l, o⟩
  rcases l <;> rcases o <;> simp [updateImageFields]

theorem updateTaskFields_no_updated_at (p : UpdateTaskPayload) :
    (updateTaskFields p).all (fun a => a.1 != "updated_at") = true := by
  rcases p with ⟨a, b, c, d⟩
  rcases a <;> rcases b <;> rcases c <;> rcases d <;> simp [updateTaskFields]

theorem updateBlockFields_no_updated_at (p : UpdateBlockPayload) :
    (updateBlockFields p).all (fun a => a.1 != "updated_at") = true := by
  rcases p with ⟨a, b, c⟩
  rcases a <;> rcases b <;> rcases c <;> simp [updateBlockFields]

theorem updateLabelFields_no_updated_at (p : UpdateLabelPayload) :
    (updateLabelFields p).all (fun a => a.1 != "updated_at") = true := by
  rcases p with ⟨a, b, c⟩
  rcases a <;> rcases b <;> rcases c <;> simp [updateLabelFields]

theorem no_updated_at_op {k : Key} {fs : List Attr}
    (h : fs.all (fun a => a.1 != "updated_at") = true) :
    opWritesField "updated_at" (Op.updSet k fs) = false := by
  simp only [opWritesField]
  rw [List.any_eq_false]
  intro a ha
  have := (List.all_eq_true.mp h) a ha
  simpa using this

theorem updateAnnFields_stamp (p : UpdateAnnotationPayload) (now : String)
    (it : Item) :
    getAttr (setAttrs it (updateAnnFields p now)) "updated_at" =
      some (AttrVal.S now) := by
  rcases p with ⟨l, g⟩
  rcases l <;> rcases g <;>
    simp [updateAnnFields, setAttrs, getAttr_setAttr]

theorem getAttr_updateAnnFields (p : UpdateAnnotationPayload) (now : String) :
    getAttr (updateAnnFields p now) "updated_at" = some (AttrVal.S now) := by
  rcases p with ⟨l, g⟩
  rcases l <;> rcases g <;> simp [updateAnnFields, getAttr]

/-- C7 (amended): `update_annotation` always stamps `updated_at` on the
stored annotation, for every payload shape; `update_image`,
`update_task`, `update_block` and `update_label` never write an
`updated_at` field in any of their store mutations, on any table and any
payload and whether they succeed or fail. -/
theorem C7_updated_at_stamping :
    (∀ (i a newId now : String) (p : UpdateAnnotationPayload) (tbl : Table),
      runM ( update_annotation i a p) (okEnv newId now) tbl =
        Except.ok ((),
          { tbl := updateSet tbl (annKey i a) (updateAnnFields p now),
            ops := [Op.updSet (annKey i a) (updateAnnFields p now)],
            calls := 1 }) ∧
      opWritesField "updated_at"
        (Op.updSet (annKey i a) (updateAnnFields p now)) = true ∧
      (∃ it', getItem (updateSet tbl (annKey i a) (updateAnnFields p now))
            (annKey i a) = some it' ∧
          getAttr it' "updated_at" = some (AttrVal.S now))) ∧
    (∀ (b i newId now : String) (p : UpdateImagePayload) (tbl : Table),
      (stOf (runM (update_image b i p) (okEnv newId now) tbl)).ops.all
        (fun o => !opWritesField "updated_at" o) = true) ∧
    (∀ (b t newId now : String) (p : UpdateTaskPayload) (tbl : Table),
      (stOf (runM (update_task b t p) (okEnv newId now) tbl)).ops.all
        (fun o => !opWritesField "updated_at" o) = true) ∧
    (∀ (b newId now : String) (p : UpdateBlockPayload) (tbl : Table),
      (stOf (runM (update_block b p) (okEnv newId now) tbl)).ops.all
        (fun o => !opWritesField "updated_at" o) = true) ∧
    (∀ (b l newId now : String) (p : UpdateLabelPayload) (tbl : Table),
      (stOf (runM (update_label b l p) (okEnv newId now) tbl)).ops.all
        (fun o => !opWritesField "updated_at" o) = true) := by
  refine ⟨?_, ?_, ?_, ?_, ?_⟩
  · intro i a newId now p tbl
    refine ⟨rfl, by simp [opWritesField, updateAnnFields], ?_⟩
    rw [getItem_updateSet]
    rcases hg : getItem tbl (annKey i a) with _ | it
    · exact ⟨updateAnnFields p now, by simp,
        getAttr_updateAnnFields p now⟩
    · exact ⟨setAttrs it (updateAnnFields p now), by simp,
        updateAnnFields_stamp p now it⟩
  · intro b i newId now p tbl
    have hop := no_updated_at_op (k := imageKey b i)
      (updateImageFields_no_updated_at p)
    by_cases hf : (updateImageFields p).isEmpty
    · rcases hg : getItem tbl (imageKey b i) with _ | it <;>
        simp [runM, update_image, get_image, doGet, doUpdSet, netCall, errM,
          bind_def, pure_def, okEnv, stOf, hf, hg]
    · simp [runM, update_image, get_image, doGet, doUpdSet, netCall, errM,
        bind_def, pure_def, okEnv, stOf, hf, getItem_updateSet, hop]
  · intro b t newId now p tbl
    rcases hg : getItem tbl (taskKey b t) with _ | it
    · simp [runM, update_task, get_task, doGet, netCall, errM, bind_def,
        pure_def, okEnv, stOf, hg]
    · have hop := no_updated_at_op (k := taskKey b t)
        (updateTaskFields_no_updated_at p)
      by_cases hf : (updateTaskFields p).isEmpty
      · simp [runM, update_task, get_task, doGet, netCall, errM, bind_def,
          pure_def, okEnv, stOf, hg, hf]
      · rcases hs : p.task_state with _ | ns
        · simp [runM, update_task, get_task, doGet, doUpdSet, netCall, errM,
            bind_def, pure_def, okEnv, stOf, hg, hf, hs, getItem_updateSet,
            hop]
        · by_cases hd : taskStateDelta (parseTaskItem b t it).task_state ns
              ((parseTaskItem b t it).image_count : Int) = 0
          · simp [runM, update_task, get_task, doGet, doUpdSet, doUpdAdd,
              netCall, errM, bind_def, pure_def, okEnv, stOf, hg, hf, hs,
              hd, getItem_updateSet, hop]
          · rcases hadd : updateAdd tbl (blockKey b) "approved_image_count"
                (taskStateDelta (parseTaskItem b t it).task_state ns
                  ((parseTaskItem b t it).image_count : Int)) with e | t'
            · simp [runM, update_task, get_task, doGet, doUpdSet, doUpdAdd,
                netCall, errM, bind_def, pure_def, okEnv, stOf, hg, hf, hs,
                hd, hadd]
            · simp [runM, update_task, get_task, doGet, doUpdSet, doUpdAdd,
                netCall, errM, bind_def, pure_def, okEnv, stOf, hg, hf, hs,
                hd, hadd, getItem_updateSet, opWritesField]
              intro a bb hmem
              have := List.all_eq_true.mp (updateTaskFields_no_updated_at p)
                _ hmem
              simpa using this
  · intro b newId now p tbl
    have hop := no_updated_at_op (k := blockKey b)
      (updateBlockFields_no_updated_at p)
    by_cases hf : (updateBlockFields p).isEmpty
    · rcases hg : getItem tbl (blockKey b) with _ | it <;>
        simp [runM, update_block, doGet, doQuery, doUpdSet, netCall, errM,
          bind_def, pure_def, okEnv, stOf, hf, hg]
    · simp [runM, update_block, doGet, doQuery, doUpdSet, netCall, errM,
        bind_def, pure_def, okEnv, stOf, hf, getItem_updateSet, hop]
  · intro b l newId now p tbl
    have hop := no_updated_at_op (k := labelKey b l)
      (updateLabelFields_no_updated_at p)
    by_cases hf : (updateLabelFields p).isEmpty
    · simp [runM, update_label, doGet, doUpdSet, netCall, errM, bind_def,
        pure_def, okEnv, stOf, hf]
    · simp [runM, update_label, doGet, doUpdSet, netCall, errM, bind_def,
        pure_def, okEnv, stOf, hf, getItem_updateSet, hop]

/-- C7 counterexample: a successful `update_image` on an existing image
performs its write without any `updated_at` field — the claim that image
updates always stamp `updated_at` fails. -/
theorem C7_update_image_no_stamp :
    (stOf (runM (update_image "b" "i" { locked := some true, order := none })
        (okEnv "id" "ts")
        [(("BLOCK#" ++ "b", "IMAGE#" ++ "i"), [("url", AttrVal.S "u")])])).ops =
      [Op.updSet ("BLOCK#" ++ "b", "IMAGE#" ++ "i")
        [("locked", AttrVal.B true)]] ∧
    opWritesField "updated_at"
      (Op.updSet ("BLOCK#" ++ "b", "IMAGE#" ++ "i")
        [("locked", AttrVal.B true)]) = false ∧
    (runM (update_image "b" "i" { locked := some true, order := none })
        (okEnv "id" "ts")
        [(("BLOCK#" ++ "b", "IMAGE#" ++ "i"),
          [("url", AttrVal.S "u")])]).isOk = true := by
  refine ⟨by rfl, by rfl, by rfl⟩

/-! ## Key-distinctness helpers

The entity keys use distinct literal prefixes; these lemmas separate
them. -/

theorem ne_of_data_head {s1 s2 : String}
    (h : s1.data.head? ≠ s2.data.head?) : s1 ≠ s2 :=
  fun he => h (congrArg (fun s : String => s.data.head?) he)

theorem head_BLOCKhash (x : String) :
    ("BLOCK#" ++ x).data.head? = some 'B' := by
  rw [String.data_append]; rfl

theorem head_IMAGEhash (x : String) :
    ("IMAGE#" ++ x).data.head? = some 'I' := by
  rw [String.data_append]; rfl

theorem head_TASKhash (x : String) :
    ("TASK#" ++ x).data.head? = some 'T' := by
  rw [String.data_append]; rfl

theorem head_ANNhash (x : String) :
    ("ANNOTATION#" ++ x).data.head? = some 'A' := by
  rw [String.data_append]; rfl

theorem head_LABELhash (x : String) :
    ("LABEL#" ++ x).data.head? = some 'L' := by
  rw [String.data_append]; rfl

theorem sBLOCK_ne_sBLOCKhash (x : String) : "BLOCK" ≠ "BLOCK#" ++ x := by
  intro h
  have hlen := congrArg (fun s : String => s.data.length) h
  simp only [String.data_append, List.length_append] at hlen
  have h5 : ("BLOCK" : String).data.length = 5 := rfl
  have h6 : ("BLOCK#" : String).data.length = 6 := rfl
  rw [h5, h6] at hlen
  omega

theorem sBLOCK_ne_sIMAGEhash (x : String) : "BLOCK" ≠ "IMAGE#" ++ x :=
  ne_of_data_head (by rw [head_IMAGEhash]; decide)

theorem sBLOCKhash_ne_sIMAGEhash (x y : String) :
    "BLOCK#" ++ x ≠ "IMAGE#" ++ y :=
  ne_of_data_head (by rw [head_BLOCKhash, head_IMAGEhash]; decide)

theorem sTASKhash_ne_sIMAGEhash (x y : String) :
    "TASK#" ++ x ≠ "IMAGE#" ++ y :=
  ne_of_data_head (by rw [head_TASKhash, head_IMAGEhash]; decide)

theorem sANNhash_ne_sIMAGEhash (x y : String) :
    "ANNOTATION#" ++ x ≠ "IMAGE#" ++ y :=
  ne_of_data_head (by rw [head_ANNhash, head_IMAGEhash]; decide)

theorem sANNhash_ne_sTASKhash (x y : String) :
    "ANNOTATION#" ++ x ≠ "TASK#" ++ y :=
  ne_of_data_head (by rw [head_ANNhash, head_TASKhash]; decide)

theorem sBLOCK_ne_sIMAGEhash' (x : String) : "IMAGE#" ++ x ≠ "BLOCK" :=
  fun h => sBLOCK_ne_sIMAGEhash x h.symm

theorem str_append_left_cancel {p a b : String} (h : p ++ a = p ++ b) :
    a = b := by
  have hd := congrArg String.data h
  rw [String.data_append, String.data_append] at hd
  exact String.ext (List.append_cancel_left hd)

theorem taskKey_ne_blockKey (b b' t : String) :
    taskKey b t ≠ blockKey b' :=
  fun h => sBLOCK_ne_sBLOCKhash b (congrArg Prod.fst h).symm

theorem imageKey_ne_blockKey (b b' i : String) :
    imageKey b i ≠ blockKey b' :=
  fun h => sBLOCK_ne_sBLOCKhash b (congrArg Prod.fst h).symm

theorem annKey_ne_blockKey (i a b : String) : annKey i a ≠ blockKey b :=
  fun h => sBLOCK_ne_sIMAGEhash i (congrArg Prod.fst h).symm

theorem imageKey_ne_taskKey (b b' i t : String) :
    imageKey b i ≠ taskKey b' t :=
  fun h => sTASKhash_ne_sIMAGEhash t i (congrArg Prod.snd h).symm

theorem annKey_ne_imageKey (i a b i' : String) :
    annKey i a ≠ imageKey b i' :=
  fun h => sBLOCKhash_ne_sIMAGEhash b i (congrArg Prod.fst h).symm

theorem annKey_ne_taskKey (i a b t : String) : annKey i a ≠ taskKey b t :=
  fun h => sBLOCKhash_ne_sIMAGEhash b i (congrArg Prod.fst h).symm

/-! ## Claim C1: the approved-counter delta of task state transitions -/

theorem updateTaskFields_nonempty {p : UpdateTaskPayload} {ns : String}
    (h : p.task_state = some ns) : (updateTaskFields p).isEmpty = false := by
  rcases p with ⟨a, b, c, d⟩
  simp only at h
  subst h
  cases a <;> cases c <;> cases d <;> simp [updateTaskFields]

/-- C1: for an `update_task` whose payload carries a `task_state` on an
existing task, the delta applied to the block's `approved_image_count` is
exactly `+image_count` for a transition into "done", `-image_count` for a
transition out of "done", and `0` otherwise (including done→done), with
`image_count` read from the task before the task record is written; a
zero delta issues no counter update at all, a non-zero delta issues
exactly one atomic increment before the task write. -/
theorem C1_update_task_approved_delta :
    (∀ (old ns : String) (c : Int),
      taskStateDelta old ns c =
        if ns = "done" ∧ old ≠ "done" then c
        else if old = "done" ∧ ns ≠ "done" then -c else 0) ∧
    (∀ (b t newId now ns : String) (p : UpdateTaskPayload) (tbl : Table)
        (it bi : Item) (n : Int),
      p.task_state = some ns →
      getItem tbl (taskKey b t) = some it →
      getItem tbl (blockKey b) = some bi →
      getAttr bi "approved_image_count" = some (AttrVal.N n) →
      (taskStateDelta (parseTaskItem b t it).task_state ns
          ((parseTaskItem b t it).image_count : Int) = 0 →
        runM (update_task b t p) (okEnv newId now) tbl =
          Except.ok
            (parseTaskItem b t (setAttrs it (updateTaskFields p)),
             { tbl := updateSet tbl (taskKey b t) (updateTaskFields p),
               ops := [Op.updSet (taskKey b t) (updateTaskFields p)],
               calls := 3 }) ∧
        getItem (updateSet tbl (taskKey b t) (updateTaskFields p))
            (blockKey b) = some bi) ∧
      (taskStateDelta (parseTaskItem b t it).task_state ns
          ((parseTaskItem b t it).image_count : Int) ≠ 0 →
        runM (update_task b t p) (okEnv newId now) tbl =
          Except.ok
            (parseTaskItem b t (setAttrs it (updateTaskFields p)),
             { tbl := updateSet
                 (putItem tbl (blockKey b)
                   (setAttr bi "approved_image_count"
                     (AttrVal.N (n + taskStateDelta
                       (parseTaskItem b t it).task_state ns
                       ((parseTaskItem b t it).image_count : Int)))))
                 (taskKey b t) (updateTaskFields p),
               ops := [Op.updAdd (blockKey b) "approved_image_count"
                   (taskStateDelta (parseTaskItem b t it).task_state ns
                     ((parseTaskItem b t it).image_count : Int)),
                 Op.updSet (taskKey b t) (updateTaskFields p)],
               calls := 4 }) ∧
        getItem (updateSet
            (putItem tbl (blockKey b)
              (setAttr bi "approved_image_count"
                (AttrVal.N (n + taskStateDelta
                  (parseTaskItem b t it).task_state ns
                  ((parseTaskItem b t it).image_count : Int)))))
            (taskKey b t) (updateTaskFields p)) (blockKey b) =
          some (setAttr bi "approved_image_count"
            (AttrVal.N (n + taskStateDelta
              (parseTaskItem b t it).task_state ns
              ((parseTaskItem b t it).image_count : Int)))))) := by
  constructor
  · intro old ns c
    unfold taskStateDelta
    by_cases h1 : old = "done" <;> by_cases h2 : ns = "done" <;>
      simp [h1, h2]
  · intro b t newId now ns p tbl it bi n hp hg hb hn
    have hne := updateTaskFields_nonempty hp
    constructor
    · intro hd
      constructor
      · simp [runM, update_task, get_task, doGet, doUpdSet, netCall, errM,
          bind_def, pure_def, okEnv, hp, hg, hne, hd, getItem_updateSet]
      · rw [getItem_updateSet]
        simp [(taskKey_ne_blockKey b b t).symm, hb]
    · intro hd
      have hadd := updateAdd_of_num hb hn
        (taskStateDelta (parseTaskItem b t it).task_state ns
          ((parseTaskItem b t it).image_count : Int))
      constructor
      · simp [runM, update_task, get_task, doGet, doUpdSet, doUpdAdd,
          netCall, errM, bind_def, pure_def, okEnv, hp, hg, hne, hd, hadd,
          getItem_updateSet, getItem_putItem, taskKey_ne_blockKey]
      · rw [getItem_updateSet]
        simp [(taskKey_ne_blockKey b b t).symm, getItem_putItem]

/-- Concrete payload for the C1 witness: set `task_state` to "done". -/
def c1Payload : UpdateTaskPayload :=
  { task_name := none, task_state := some "done", assignee := none,
    checked_by := none }

/-- Concrete task item for the C1 witness: state "todo", 3 images. -/
def c1TaskItem : Item :=
  [("task_state", AttrVal.S "todo"), ("image_count", AttrVal.N 3)]

/-- Concrete block item for the C1 witness. -/
def c1BlockItem : Item :=
  [("approved_image_count", AttrVal.N 5)]

/-- Concrete table for the C1 witness. -/
def c1Tbl : Table :=
  [(("BLOCK", "BLOCK#" ++ "b"), c1BlockItem),
   (("BLOCK#" ++ "b", "TASK#" ++ "t"), c1TaskItem)]

/-- C1 witness: a todo→done transition of a 3-image task applies the
`+3` delta to the block's `approved_image_count`. -/
theorem C1_update_task_approved_delta_witness :
    c1Payload.task_state = some "done" ∧
    getItem c1Tbl (taskKey "b" "t") = some c1TaskItem ∧
    getItem c1Tbl (blockKey "b") = some c1BlockItem ∧
    getAttr c1BlockItem "approved_image_count" = some (AttrVal.N 5) ∧
    taskStateDelta (parseTaskItem "b" "t" c1TaskItem).task_state "done"
        ((parseTaskItem "b" "t" c1TaskItem).image_count : Int) ≠ 0 ∧
    runM (update_task "b" "t" c1Payload) (okEnv "id" "ts") c1Tbl =
      Except.ok
        (parseTaskItem "b" "t" (setAttrs c1TaskItem
          (updateTaskFields c1Payload)),
         { tbl := updateSet
             (putItem c1Tbl (blockKey "b")
               (setAttr c1BlockItem "approved_image_count"
                 (AttrVal.N (5 + taskStateDelta
                   (parseTaskItem "b" "t" c1TaskItem).task_state "done"
                   ((parseTaskItem "b" "t" c1TaskItem).image_count : Int)))))
             (taskKey "b" "t") (updateTaskFields c1Payload),
           ops := [Op.updAdd (blockKey "b") "approved_image_count"
               (taskStateDelta (parseTaskItem "b" "t" c1TaskItem).task_state
                 "done" ((parseTaskItem "b" "t" c1TaskItem).image_count : Int)),
             Op.updSet (taskKey "b" "t") (updateTaskFields c1Payload)],
           calls := 4 }) :=
  ⟨rfl, rfl, rfl, rfl, by decide,
   (((C1_update_task_approved_delta.2 "b" "t" "id" "ts" "done" c1Payload
      c1Tbl c1TaskItem c1BlockItem 5) rfl rfl rfl rfl).2 (by decide)).1⟩

/-! ## Claim C10: `delete_image` with a dangling `task_id` -/

/-- Image item for the C10 scenario: carries a `task_id` whose task row
does not exist. -/
def c10ImgItem : Item :=
  [("url", AttrVal.S "u"), ("task_id", AttrVal.S "t"),
   ("annotation_count", AttrVal.N 2)]

/-- First annotation row of the C10 image. -/
def c10Ann1 : Key × Item :=
  (("IMAGE#" ++ "i", "ANNOTATION#" ++ "a1"), [("geometry", AttrVal.S "g1")])

/-- Second annotation row of the C10 image. -/
def c10Ann2 : Key × Item :=
  (("IMAGE#" ++ "i", "ANNOTATION#" ++ "a2"), [("geometry", AttrVal.S "g2")])

/-- C10 scenario table: a block with `image_count` 7, one image whose
`task_id` references no task row, and its two annotations. -/
def c10Tbl : Table :=
  [(("BLOCK", "BLOCK#" ++ "b"), [("image_count", AttrVal.N 7)]),
   (("BLOCK#" ++ "b", "IMAGE#" ++ "i"), c10ImgItem),
   c10Ann1, c10Ann2]

/-- The C10 table after the failure: only the block's `image_count` has
changed. -/
def c10TblAfter : Table :=
  [(("BLOCK", "BLOCK#" ++ "b"), [("image_count", AttrVal.N 6)]),
   (("BLOCK#" ++ "b", "IMAGE#" ++ "i"), c10ImgItem),
   c10Ann1, c10Ann2]

/-- C10: deleting an existing image whose `task_id` references a missing
task errors out (at the task counter update), leaves the image row and
both its annotation rows in the store, and has already decremented the
block's `image_count` from 7 to 6 without rollback. -/
theorem C10_delete_image_dangling_task :
    runM (delete_image "b" "i") (okEnv "id" "ts") c10Tbl =
      Except.error ("DynamoDB update_item error: ValidationException",
        { tbl := c10TblAfter,
          ops := [Op.updAdd (blockKey "b") "image_count" (-1)],
          calls := 3 }) ∧
    getItem c10Tbl (taskKey "b" "t") = none ∧
    getItem c10TblAfter (imageKey "b" "i") = some c10ImgItem ∧
    query c10TblAfter ("IMAGE#" ++ "i") "ANNOTATION#" = [c10Ann1, c10Ann2] ∧
    getItem c10Tbl (blockKey "b") = some [("image_count", AttrVal.N 7)] ∧
    getItem c10TblAfter (blockKey "b") = some [("image_count", AttrVal.N 6)] := by
  refine ⟨by rfl, by rfl, by rfl, by rfl, by rfl, by rfl⟩

/-! ## Claim C2: order of operations and partial failure in `create_image` -/

/-- Environment whose network faults hit exactly call index `k`. -/
def faultAt (k : Nat) (newId now : String) : Env :=
  { faults := fun i => i == k, unproc := fun _ => [], newId := newId,
    now := now }

/-- Replay one logged mutation against a table (a failed atomic increment
leaves the table unchanged). -/
def applyOp (t : Table) : Op → Table
  | Op.put k it => putItem t k it
  | Op.updAdd k f d =>
      match updateAdd t k f d with
      | Except.ok t' => t'
      | Except.error _ => t
  | Op.updSet k fs => updateSet t k fs
  | Op.del k => deleteItem t k
  | Op.batchDel ks => deleteKeys t ks
  | Op.sleepMs _ => t

/-- Replay a mutation log left to right. -/
def applyOps (t : Table) (ops : List Op) : Table :=
  ops.foldl applyOp t

/-- The full intended mutation sequence of a `create_image` call that
names a task: primary put, block counter, task counter, then — when the
re-read task is "done" with a positive count — the approved-counter
bump. -/
def c2Ideal (b newId now tid : String) (p : CreateImagePayload)
    (cond : Bool) : List Op :=
  [Op.put (imageKey b newId) (createImageItem p now),
   Op.updAdd (blockKey b) "image_count" 1,
   Op.updAdd (taskKey b tid) "image_count" 1] ++
  (if cond then [Op.updAdd (blockKey b) "approved_image_count" 1] else [])

/-- C2: `create_image` performs, in order, the primary image put, the
block `image_count` increment, then — only when the payload names a
task — the task `image_count` increment and, only when the re-read task
is "done" (its incremented count being positive), the block
`approved_image_count` bump; a network fault at any step aborts the
remaining steps, keeps the already-applied ones unrolled, and surfaces
the error. -/
theorem C2_create_image_order :
    (∀ (b newId now tid : String) (p : CreateImagePayload) (tbl : Table)
        (bi ti : Item) (n q m : Int),
      p.task_id = some tid →
      getItem tbl (blockKey b) = some bi →
      getAttr bi "image_count" = some (AttrVal.N n) →
      getAttr bi "approved_image_count" = some (AttrVal.N q) →
      getItem tbl (taskKey b tid) = some ti →
      getAttr ti "image_count" = some (AttrVal.N m) →
      0 ≤ m → m + 1 < 4294967296 →
      (runM (create_image b p) (okEnv newId now) tbl =
        Except.ok
          ({ image_id := newId, block_id := b, task_id := p.task_id,
             url := p.url, locked := false, order := p.order,
             annotation_count := 0, uploaded_at := now },
           { tbl := applyOps tbl (c2Ideal b newId now tid p
               (parseStrD (getAttr ti "task_state") == "done")),
             ops := c2Ideal b newId now tid p
               (parseStrD (getAttr ti "task_state") == "done"),
             calls := if parseStrD (getAttr ti "task_state") == "done"
                      then 5 else 4 })) ∧
      (∀ k : Nat, k < (if parseStrD (getAttr ti "task_state") == "done"
                 then 5 else 4) →
        ∃ e, runM (create_image b p) (faultAt k newId now) tbl =
          Except.error (e,
            { tbl := applyOps tbl ((c2Ideal b newId now tid p
                (parseStrD (getAttr ti "task_state") == "done")).take
                  (min k 3)),
              ops := (c2Ideal b newId now tid p
                (parseStrD (getAttr ti "task_state") == "done")).take
                  (min k 3),
              calls := k + 1 }))) ∧
    (∀ (b newId now : String) (p : CreateImagePayload) (tbl : Table)
        (bi : Item) (n : Int),
      p.task_id = none →
      getItem tbl (blockKey b) = some bi →
      getAttr bi "image_count" = some (AttrVal.N n) →
      runM (create_image b p) (okEnv newId now) tbl =
        Except.ok
          ({ image_id := newId, block_id := b, task_id := none,
             url := p.url, locked := false, order := p.order,
             annotation_count := 0, uploaded_at := now },
           { tbl := putItem (putItem tbl (imageKey b newId)
                 (createImageItem p now)) (blockKey b)
               (setAttr bi "image_count" (AttrVal.N (n + 1))),
             ops := [Op.put (imageKey b newId) (createImageItem p now),
               Op.updAdd (blockKey b) "image_count" 1],
             calls := 2 })) := by
  constructor
  · intro b newId now tid p tbl bi ti n q m hp hB hBn hBa hT hTn hm0 hm1
    have ne1 : blockKey b ≠ imageKey b newId :=
      (imageKey_ne_blockKey b b newId).symm
    have ne2 : taskKey b tid ≠ imageKey b newId :=
      (imageKey_ne_taskKey b b newId tid).symm
    have ne3 : taskKey b tid ≠ blockKey b := taskKey_ne_blockKey b b tid
    have ne4 : blockKey b ≠ taskKey b tid := ne3.symm
    have hsf1 : ("task_state" : String) ≠ "image_count" := by decide
    have hsf2 : ("approved_image_count" : String) ≠ "image_count" := by
      decide
    have hpos : (0 : Int) ≤ m + 1 := by omega
    have hpos2 : 0 < (m + 1).toNat := by omega
    by_cases hc : parseStrD (getAttr ti "task_state") = "done"
    · constructor
      · simp [runM, create_image, get_task, askEnv, doPut, doUpdAdd, doGet,
          netCall, bind_def, pure_def, okEnv, updateAdd, getItem_putItem,
          getAttr_setAttr, parseTaskItem, parseU32, applyOps, applyOp,
          c2Ideal, hp, hB, hBn, hBa, hT, hTn, hc, ne1, ne2, ne3, ne4,
          hsf1, hsf2, hpos, hm1, hpos2]
      · intro k hk
        rw [if_pos (by simp [hc])] at hk
        interval_cases k <;>
          [exact ⟨"DynamoDB put_item error: network", by
            simp [runM, create_image, get_task, askEnv, doPut, doUpdAdd,
              doGet, netCall, bind_def, pure_def, faultAt, updateAdd,
              getItem_putItem, getAttr_setAttr, parseTaskItem, parseU32,
              applyOps, applyOp, c2Ideal, hp, hB, hBn, hBa, hT, hTn, hc,
              ne1, ne2, ne3, ne4, hsf1, hsf2, hpos, hm1, hpos2]⟩;
           exact ⟨"DynamoDB update_item error: network", by
            simp [runM, create_image, get_task, askEnv, doPut, doUpdAdd,
              doGet, netCall, bind_def, pure_def, faultAt, updateAdd,
              getItem_putItem, getAttr_setAttr, parseTaskItem, parseU32,
              applyOps, applyOp, c2Ideal, hp, hB, hBn, hBa, hT, hTn, hc,
              ne1, ne2, ne3, ne4, hsf1, hsf2, hpos, hm1, hpos2]⟩;
           exact ⟨"DynamoDB update_item error: network", by
            simp [runM, create_image, get_task, askEnv, doPut, doUpdAdd,
              doGet, netCall, bind_def, pure_def, faultAt, updateAdd,
              getItem_putItem, getAttr_setAttr, parseTaskItem, parseU32,
              applyOps, applyOp, c2Ideal, hp, hB, hBn, hBa, hT, hTn, hc,
              ne1, ne2, ne3, ne4, hsf1, hsf2, hpos, hm1, hpos2]⟩;
           exact ⟨"DynamoDB get_item error: network", by
            simp [runM, create_image, get_task, askEnv, doPut, doUpdAdd,
              doGet, netCall, bind_def, pure_def, faultAt, updateAdd,
              getItem_putItem, getAttr_setAttr, parseTaskItem, parseU32,
              applyOps, applyOp, c2Ideal, hp, hB, hBn, hBa, hT, hTn, hc,
              ne1, ne2, ne3, ne4, hsf1, hsf2, hpos, hm1, hpos2]⟩;
           exact ⟨"DynamoDB update_item error: network", by
            simp [runM, create_image, get_task, askEnv, doPut, doUpdAdd,
              doGet, netCall, bind_def, pure_def, faultAt, updateAdd,
              getItem_putItem, getAttr_setAttr, parseTaskItem, parseU32,
              applyOps, applyOp, c2Ideal, hp, hB, hBn, hBa, hT, hTn, hc,
              ne1, ne2, ne3, ne4, hsf1, hsf2, hpos, hm1, hpos2]⟩]
    · constructor
      · simp [runM, create_image, get_task, askEnv, doPut, doUpdAdd, doGet,
          netCall, bind_def, pure_def, okEnv, updateAdd, getItem_putItem,
          getAttr_setAttr, parseTaskItem, parseU32, applyOps, applyOp,
          c2Ideal, hp, hB, hBn, hBa, hT, hTn, hc, ne1, ne2, ne3, ne4,
          hsf1, hsf2, hpos, hm1, hpos2]
      · intro k hk
        rw [if_neg (by simp [hc])] at hk
        interval_cases k <;>
          [exact ⟨"DynamoDB put_item error: network", by
            simp [runM, create_image, get_task, askEnv, doPut, doUpdAdd,
              doGet, netCall, bind_def, pure_def, faultAt, updateAdd,
              getItem_putItem, getAttr_setAttr, parseTaskItem, parseU32,
              applyOps, applyOp, c2Ideal, hp, hB, hBn, hBa, hT, hTn, hc,
              ne1, ne2, ne3, ne4, hsf1, hsf2, hpos, hm1, hpos2]⟩;
           exact ⟨"DynamoDB update_item error: network", by
            simp [runM, create_image, get_task, askEnv, doPut, doUpdAdd,
              doGet, netCall, bind_def, pure_def, faultAt, updateAdd,
              getItem_putItem, getAttr_setAttr, parseTaskItem, parseU32,
              applyOps, applyOp, c2Ideal, hp, hB, hBn, hBa, hT, hTn, hc,
              ne1, ne2, ne3, ne4, hsf1, hsf2, hpos, hm1, hpos2]⟩;
           exact ⟨"DynamoDB update_item error: network", by
            simp [runM, create_image, get_task, askEnv, doPut, doUpdAdd,
              doGet, netCall, bind_def, pure_def, faultAt, updateAdd,
              getItem_putItem, getAttr_setAttr, parseTaskItem, parseU32,
              applyOps, applyOp, c2Ideal, hp, hB, hBn, hBa, hT, hTn, hc,
              ne1, ne2, ne3, ne4, hsf1, hsf2, hpos, hm1, hpos2]⟩;
           exact ⟨"DynamoDB get_item error: network", by
            simp [runM, create_image, get_task, askEnv, doPut, doUpdAdd,
              doGet, netCall, bind_def, pure_def, faultAt, updateAdd,
              getItem_putItem, getAttr_setAttr, parseTaskItem, parseU32,
              applyOps, applyOp, c2Ideal, hp, hB, hBn, hBa, hT, hTn, hc,
              ne1, ne2, ne3, ne4, hsf1, hsf2, hpos, hm1, hpos2]⟩]
  · intro b newId now p tbl bi n hp hB hBn
    have ne1 : blockKey b ≠ imageKey b newId :=
      (imageKey_ne_blockKey b b newId).symm
    simp [runM, create_image, askEnv, doPut, doUpdAdd, netCall, bind_def,
      pure_def, okEnv, updateAdd, getItem_putItem, hp, hB, hBn, ne1]

/-- Concrete payload for the C2 witness. -/
def c2Payload : CreateImagePayload :=
  { url := "u", task_id := some "t", order := none }

/-- Concrete block item for the C2 witness. -/
def c2BlockItem : Item :=
  [("image_count", AttrVal.N 0), ("approved_image_count", AttrVal.N 0)]

/-- Concrete task item for the C2 witness: already "done", no images. -/
def c2TaskItem : Item :=
  [("task_state", AttrVal.S "done"), ("image_count", AttrVal.N 0)]

/-- Concrete table for the C2 witness. -/
def c2Tbl : Table :=
  [(("BLOCK", "BLOCK#" ++ "b"), c2BlockItem),
   (("BLOCK#" ++ "b", "TASK#" ++ "t"), c2TaskItem)]

/-- C2 witness: creating an image under an already-"done" task runs the
full four-step sequence. -/
theorem C2_create_image_order_witness :
    c2Payload.task_id = some "t" ∧
    getItem c2Tbl (blockKey "b") = some c2BlockItem ∧
    getAttr c2BlockItem "image_count" = some (AttrVal.N 0) ∧
    getAttr c2BlockItem "approved_image_count" = some (AttrVal.N 0) ∧
    getItem c2Tbl (taskKey "b" "t") = some c2TaskItem ∧
    getAttr c2TaskItem "image_count" = some (AttrVal.N 0) ∧
    (0 : Int) ≤ 0 ∧ (0 : Int) + 1 < 4294967296 ∧
    runM (create_image "b" c2Payload) (okEnv "img1" "ts") c2Tbl =
      Except.ok
        ({ image_id := "img1", block_id := "b", task_id := c2Payload.task_id,
           url := c2Payload.url, locked := false, order := c2Payload.order,
           annotation_count := 0, uploaded_at := "ts" },
         { tbl := applyOps c2Tbl (c2Ideal "b" "img1" "ts" "t" c2Payload
             (parseStrD (getAttr c2TaskItem "task_state") == "done")),
           ops := c2Ideal "b" "img1" "ts" "t" c2Payload
             (parseStrD (getAttr c2TaskItem "task_state") == "done"),
           calls := if parseStrD (getAttr c2TaskItem "task_state") == "done"
                    then 5 else 4 }) :=
  ⟨rfl, rfl, rfl, rfl, rfl, rfl, by decide, by decide,
   ((C2_create_image_order.1 "b" "img1" "ts" "t" c2Payload c2Tbl
      c2BlockItem c2TaskItem 0 0 0) rfl rfl rfl rfl rfl rfl (by decide)
      (by decide)).1⟩

/-! ## Claim C5: chunked batch delete with bounded retry -/

/-- Environment with no network faults and a given unprocessed-items
oracle (what the store reports unprocessed at each call index). -/
def oracleEnv (u : Nat → List Key) : Env :=
  { faults := fun _ => false, unproc := u, newId := "", now := "" }

/-- Is a logged op a batch write? -/
def isBatchDel : Op → Bool
  | Op.batchDel _ => true
  | _ => false

/-- The intended trace of the retry loop for one chunk entered after
`attemptsDone` attempts: submit the requests; while the store reports a
non-empty unprocessed subset and fewer than 5 attempts have been made,
sleep `100ms × attempts` and resubmit exactly the reported unprocessed
items; stop (dropping the remainder) at the 5th attempt.  Returns the
trace and the next call index. -/
def chunkRun (env : Env) (i : Nat) (reqs : List Key)
    (attemptsDone : Nat) : List Op × Nat :=
  let attempts := attemptsDone + 1
  let u := (env.unproc i).filter (fun k => reqs.contains k)
  if u.isEmpty then ([Op.batchDel reqs], i + 1)
  else if h : attempts < 5 then
    let rest := chunkRun env (i + 1) u attempts
    (Op.batchDel reqs :: Op.sleepMs (100 * attempts) :: rest.1, rest.2)
  else ([Op.batchDel reqs], i + 1)
termination_by 5 - attemptsDone

/-- The intended trace of `batch_delete_items` over its chunks. -/
def chunksRun (env : Env) (i : Nat) : List (List Key) → List Op × Nat
  | [] => ([], i)
  | c :: cs =>
      let r1 := chunkRun env i c 0
      let r2 := chunksRun env r1.2 cs
      (r1.1 ++ r2.1, r2.2)

theorem batchLoop_run (u : Nat → List Key) (reqs : List Key)
    (attemptsDone : Nat) (s : St) :
    ∃ t', batchLoop reqs attemptsDone (oracleEnv u) s =
      Except.ok ((),
        { tbl := t',
          ops := s.ops ++ (chunkRun (oracleEnv u) s.calls reqs attemptsDone).1,
          calls := (chunkRun (oracleEnv u) s.calls reqs attemptsDone).2 }) := by
  rw [batchLoop, chunkRun]
  simp only [bind_def, doBatchWrite, netCall, doSleep, pure_def, oracleEnv,
    Bool.false_eq_true, if_false]
  cases hu : ((u s.calls).filter (fun k => reqs.contains k)).isEmpty
  · by_cases ha : attemptsDone + 1 < 5
    · obtain ⟨t'', ht⟩ := batchLoop_run u
        ((u s.calls).filter (fun k => reqs.contains k))
        (attemptsDone + 1)
        { tbl := deleteKeys s.tbl (reqs.filter (fun k =>
            !((u s.calls).filter (fun k' => reqs.contains k')).contains k)),
          ops := (s.ops ++ [Op.batchDel reqs]) ++
            [Op.sleepMs (100 * (attemptsDone + 1))],
          calls := s.calls + 1 }
      refine ⟨t'', ?_⟩
      simp only [oracleEnv] at ht
      simp only [hu, Bool.false_eq_true, if_false, dif_pos ha]
      simp only [bind_def, doSleep, pure_def]
      rw [ht]
      simp [List.append_assoc]
    · simp only [hu, Bool.false_eq_true, if_false, dif_neg ha]
      exact ⟨_, rfl⟩
  · simp only [hu, if_true]
    exact ⟨_, rfl⟩
termination_by 5 - attemptsDone
decreasing_by omega

theorem batch_delete_items_run (u : Nat → List Key) (cs : List (List Key))
    (s : St) :
    ∃ t', (cs.forM (fun chunk => batchLoop chunk 0)) (oracleEnv u) s =
      Except.ok ((),
        { tbl := t',
          ops := s.ops ++ (chunksRun (oracleEnv u) s.calls cs).1,
          calls := (chunksRun (oracleEnv u) s.calls cs).2 }) := by
  induction cs generalizing s with
  | nil => exact ⟨s.tbl, by simp [List.forM, pure_def, chunksRun]⟩
  | cons c cs ih =>
    obtain ⟨t1, h1⟩ := batchLoop_run u c 0 s
    obtain ⟨t2, h2⟩ := ih
      { tbl := t1,
        ops := s.ops ++ (chunkRun (oracleEnv u) s.calls c 0).1,
        calls := (chunkRun (oracleEnv u) s.calls c 0).2 }
    refine ⟨t2, ?_⟩
    simp only [List.forM_cons', bind_def, h1]
    rw [h2]
    simp [chunksRun, List.append_assoc]

theorem chunks25_sizes (l : List Key) :
    ∀ c ∈ chunks25 l, c.length ≤ 25 := by
  match l with
  | [] => intro c hc; simp [chunks25] at hc
  | x :: xs =>
    intro c hc
    rw [chunks25] at hc
    rcases List.mem_cons.mp hc with rfl | h
    · simp only [List.length_cons, List.length_take]
      omega
    · exact chunks25_sizes (xs.drop 24) c h
termination_by l.length
decreasing_by simp; omega

theorem chunks25_join (l : List Key) : (chunks25 l).join = l := by
  match l with
  | [] => rw [chunks25]; rfl
  | x :: xs =>
    rw [chunks25]
    simp only [List.join_cons, chunks25_join (xs.drop 24)]
    simp [List.take_append_drop]
termination_by l.length
decreasing_by simp; omega

theorem chunkRun_countP (env : Env) (i : Nat) (reqs : List Key)
    (attemptsDone : Nat) (h : attemptsDone < 5) :
    ((chunkRun env i reqs attemptsDone).1.countP isBatchDel) ≤
      5 - attemptsDone := by
  rw [chunkRun]
  by_cases hu :
      ((env.unproc i).filter (fun k => reqs.contains k)).isEmpty = true
  · simp only [if_pos hu]
    simp [List.countP_cons, isBatchDel]
    omega
  · by_cases ha : attemptsDone + 1 < 5
    · have hrec := chunkRun_countP env (i + 1)
        ((env.unproc i).filter (fun k => reqs.contains k))
        (attemptsDone + 1) ha
      simp only [if_neg hu, dif_pos ha]
      simp only [List.countP_cons, isBatchDel]
      simp only [List.countP] at hrec ⊢
      simp [List.countP.go, isBatchDel] at hrec ⊢
      omega
    · simp only [if_neg hu, dif_neg ha]
      simp [List.countP_cons, isBatchDel]
      omega
termination_by 5 - attemptsDone
decreasing_by omega

/-- C5: `batch_delete_items` splits its keys into chunks of at most 25
(whose concatenation is the input), and for each chunk issues a batch
write, resubmitting exactly the store-reported unprocessed items with a
`100ms × attempt` sleep between attempts, making at most 5 attempts per
chunk, and always returns success — items still unprocessed after the
5th attempt are dropped without error. -/
theorem C5_batch_delete_retry :
    (∀ (un : Nat → List Key) (ks : List Key) (s : St),
      ∃ t', batch_delete_items ks (oracleEnv un) s =
        Except.ok ((),
          { tbl := t',
            ops := s.ops ++
              (chunksRun (oracleEnv un) s.calls (chunks25 ks)).1,
            calls := (chunksRun (oracleEnv un) s.calls (chunks25 ks)).2 })) ∧
    (∀ l : List Key, ∀ c ∈ chunks25 l, c.length ≤ 25) ∧
    (∀ l : List Key, (chunks25 l).join = l) ∧
    (∀ (env : Env) (i : Nat) (reqs : List Key),
      ((chunkRun env i reqs 0).1.countP isBatchDel) ≤ 5) := by
  refine ⟨?_, chunks25_sizes, chunks25_join, ?_⟩
  · intro un ks s
    exact batch_delete_items_run un (chunks25 ks) s
  · intro env i reqs
    have := chunkRun_countP env i reqs 0 (by omega)
    omega

/-! ## Membership lemmas for queries and bulk deletion -/

theorem strStrip_append {p s r : String} (h : strStrip p s = some r) :
    p ++ r = s := by
  unfold strStrip at h
  split at h
  case isTrue hp =>
    injection h with h'
    subst h'
    apply String.ext
    rw [String.data_append]
    obtain ⟨t, ht⟩ := List.isPrefixOf_iff_prefix.mp hp
    rw [← ht]
    simp
  case isFalse => exact absurd h (by simp)

theorem mem_query {r : Key × Item} {t : Table} {pk pre : String} :
    r ∈ query t pk pre ↔
      r ∈ t ∧ r.1.1 = pk ∧ strHasPre pre r.1.2 = true := by
  induction t with
  | nil => simp [query]
  | cons x xs ih =>
    rw [query]
    by_cases hc : x.1.1 = pk ∧ strHasPre pre x.1.2 = true
    · rw [if_pos hc]
      simp only [List.mem_cons, ih]
      constructor
      · rintro (rfl | ⟨h1, h2, h3⟩)
        exacts [⟨Or.inl rfl, hc.1, hc.2⟩, ⟨Or.inr h1, h2, h3⟩]
      · rintro ⟨rfl | h1, h2, h3⟩
        exacts [Or.inl rfl, Or.inr ⟨h1, h2, h3⟩]
    · rw [if_neg hc]
      rw [ih]
      constructor
      · rintro ⟨h1, h2, h3⟩
        exact ⟨List.mem_cons_of_mem x h1, h2, h3⟩
      · rintro ⟨hm, h2, h3⟩
        rcases List.mem_cons.mp hm with rfl | h1
        · exact absurd ⟨h2, h3⟩ hc
        · exact ⟨h1, h2, h3⟩

theorem mem_deleteItem {r : Key × Item} {t : Table} {k : Key} :
    r ∈ deleteItem t k ↔ r ∈ t ∧ r.1 ≠ k := by
  induction t with
  | nil => simp [deleteItem]
  | cons x xs ih =>
    rw [deleteItem]
    by_cases hx : x.1 = k
    · rw [if_pos hx, ih]
      constructor
      · rintro ⟨h1, h2⟩
        exact ⟨List.mem_cons_of_mem x h1, h2⟩
      · rintro ⟨hm, h2⟩
        rcases List.mem_cons.mp hm with rfl | h1
        · exact absurd hx h2
        · exact ⟨h1, h2⟩
    · rw [if_neg hx]
      simp only [List.mem_cons, ih]
      constructor
      · rintro (rfl | ⟨h1, h2⟩)
        exacts [⟨Or.inl rfl, hx⟩, ⟨Or.inr h1, h2⟩]
      · rintro ⟨rfl | h1, h2⟩
        exacts [Or.inl rfl, Or.inr ⟨h1, h2⟩]

theorem mem_deleteKeys {r : Key × Item} {ks : List Key} {t : Table} :
    r ∈ deleteKeys t ks ↔ r ∈ t ∧ r.1 ∉ ks := by
  induction ks generalizing t with
  | nil => simp [deleteKeys]
  | cons k rest ih =>
    show r ∈ deleteKeys (deleteItem t k) rest ↔ _
    rw [ih, mem_deleteItem]
    constructor
    · rintro ⟨⟨h1, h2⟩, h3⟩
      refine ⟨h1, ?_⟩
      intro hm
      rcases List.mem_cons.mp hm with he | hm'
      · exact h2 he
      · exact h3 hm'
    · rintro ⟨h1, h2⟩
      exact ⟨⟨h1, fun he => h2 (by simp [he])⟩,
        fun hm => h2 (List.mem_cons_of_mem _ hm)⟩

theorem getItem_none_iff {t : Table} {k : Key} :
    getItem t k = none ↔ ∀ r ∈ t, r.1 ≠ k := by
  induction t with
  | nil => simp [getItem]
  | cons x xs ih =>
    by_cases hx : x.1 = k <;> simp [getItem, hx, ih]

theorem getItem_deleteKeys (t : Table) (ks : List Key) (k : Key) :
    getItem (deleteKeys t ks) k = if k ∈ ks then none else getItem t k := by
  induction ks generalizing t with
  | nil => simp [deleteKeys]
  | cons a rest ih =>
    show getItem (deleteKeys (deleteItem t a) rest) k = _
    rw [ih, getItem_deleteItem]
    by_cases h1 : k ∈ rest <;> by_cases h2 : k = a <;>
      simp [h1, h2, List.mem_cons]

theorem deleteItem_of_absent {t : Table} {k : Key}
    (h : getItem t k = none) : deleteItem t k = t := by
  induction t with
  | nil => rfl
  | cons x xs ih =>
    rw [getItem] at h
    by_cases hx : x.1 = k
    · simp [hx] at h
    · rw [if_neg hx] at h
      rw [deleteItem, if_neg hx, ih h]

/-! ## Claim C4: cascade completeness of `delete_block` -/

/-- The keys collected by `delete_task_images` for one task partition. -/
def collectTaskImages (t : Table) (taskPk : String) : List Key :=
  (query t taskPk "IMAGE#").map (fun r => (taskPk, r.1.2))

/-- The keys collected by the per-task loop of `delete_tasks`. -/
def collectTasksLoop (t : Table) : List String → List Key
  | [] => []
  | tp :: rest => collectTaskImages t tp ++ [(tp, tp)] ++ collectTasksLoop t rest

/-- The task sort keys of a block. -/
def taskPksOf (t : Table) (blockPk : String) : List String :=
  (query t blockPk "TASK#").filterMap (fun r =>
    if strHasPre "TASK#" r.1.2 then some r.1.2 else none)

/-- The keys collected by `delete_tasks`. -/
def collect_tasks (t : Table) (blockPk : String) : List Key :=
  (taskPksOf t blockPk).map (fun sk => (blockPk, sk)) ++
    collectTasksLoop t (taskPksOf t blockPk)

/-- The keys collected by `delete_labels`. -/
def collect_labels (t : Table) (blockPk : String) : List Key :=
  (query t blockPk "LABEL#").map (fun r => (blockPk, r.1.2))

/-- The keys collected by `delete_annotations` for one image partition. -/
def collectAnns (t : Table) (imagePk : String) : List Key :=
  (query t imagePk "ANNOTATION#").map (fun r => (imagePk, r.1.2))

/-- The keys collected by the per-image loop of `delete_block_images`. -/
def collectImagesLoop (t : Table) : List String → List Key
  | [] => []
  | ip :: rest => collectAnns t ip ++ [(ip, ip)] ++ collectImagesLoop t rest

/-- The image sort keys of a block. -/
def imagePksOf (t : Table) (blockPk : String) : List String :=
  (query t blockPk "IMAGE#").filterMap (fun r =>
    if strHasPre "IMAGE#" r.1.2 then some r.1.2 else none)

/-- The keys collected by `delete_block_images`. -/
def collect_block_images (t : Table) (blockPk : String) : List Key :=
  (imagePksOf t blockPk).map (fun sk => (blockPk, sk)) ++
    collectImagesLoop t (imagePksOf t blockPk)

/-- Everything `delete_block` collects for deletion, the block's own key
last. -/
def collect_block_keys (t : Table) (blockId : String) : List Key :=
  collect_tasks t ("BLOCK#" ++ blockId) ++
    collect_labels t ("BLOCK#" ++ blockId) ++
    collect_block_images t ("BLOCK#" ++ blockId) ++
    [("BLOCK", "BLOCK#" ++ blockId)]

theorem foldl_addKey_all (pk : String) (rows : List (Key × Item)) :
    ∀ ks : List Key,
      rows.foldl (fun acc r => add_delete_key acc pk r.1.2) ks =
        ks ++ rows.map (fun r => (pk, r.1.2)) := by
  induction rows with
  | nil => simp
  | cons r rest ih =>
    intro ks
    rw [List.foldl_cons, ih]
    simp [add_delete_key]

theorem foldl_addKey_if (pk pre : String) (rows : List (Key × Item)) :
    ∀ ks : List Key,
      rows.foldl (fun acc r =>
        if strHasPre pre r.1.2 then add_delete_key acc pk r.1.2 else acc)
          ks =
        ks ++ (rows.filterMap (fun r =>
          if strHasPre pre r.1.2 then some r.1.2 else none)).map
            (fun sk => (pk, sk)) := by
  induction rows with
  | nil => simp
  | cons r rest ih =>
    intro ks
    rw [List.foldl_cons]
    by_cases hc : strHasPre pre r.1.2 = true
    · rw [if_pos hc, ih]
      simp [add_delete_key, List.filterMap_cons, hc]
    · rw [if_neg hc, ih]
      simp [List.filterMap_cons, hc]

theorem oracleEnv_faults (u : Nat → List Key) (i : Nat) :
    (oracleEnv u).faults i = false := rfl

theorem oracleEnv_unproc (u : Nat → List Key) (i : Nat) :
    (oracleEnv u).unproc i = u i := rfl

theorem delete_task_images_run (u : Nat → List Key) (taskPk : String)
    (ks : List Key) (s : St) :
    delete_task_images taskPk ks (oracleEnv u) s =
      Except.ok (ks ++ collectTaskImages s.tbl taskPk,
        { s with calls := s.calls + 1 }) := by
  rw [delete_task_images ]
  simp [bind_def, pure_def, doQuery, netCall, oracleEnv, foldl_addKey_all,
    collectTaskImages]

theorem deleteTasksLoop_run (u : Nat → List Key) (tps : List String)
    (ks : List Key) (s : St) :
    deleteTasksLoop tps ks (oracleEnv u) s =
      Except.ok (ks ++ collectTasksLoop s.tbl tps,
        { s with calls := s.calls + tps.length }) := by
  induction tps generalizing ks s with
  | nil => simp [deleteTasksLoop, pure_def, collectTasksLoop]
  | cons tp rest ih =>
    rw [deleteTasksLoop]
    simp only [bind_def, delete_task_images_run]
    rw [ih]
    simp [collectTasksLoop, add_delete_key, List.append_assoc]
    omega

theorem delete_tasks_run (u : Nat → List Key) (blockPk : String)
    (ks : List Key) (s : St) :
    delete_tasks blockPk ks (oracleEnv u) s =
      Except.ok (ks ++ collect_tasks s.tbl blockPk,
        { s with calls :=
            s.calls + 1 + (taskPksOf s.tbl blockPk).length }) := by
  rw [delete_tasks ]
  simp only [bind_def, doQuery, netCall, oracleEnv_faults,
    Bool.false_eq_true, if_false, foldl_addKey_if]
  rw [deleteTasksLoop_run]
  simp [collect_tasks, taskPksOf, List.append_assoc]

theorem delete_labels_run (u : Nat → List Key) (blockPk : String)
    (ks : List Key) (s : St) :
    delete_labels blockPk ks (oracleEnv u) s =
      Except.ok (ks ++ collect_labels s.tbl blockPk,
        { s with calls := s.calls + 1 }) := by
  rw [delete_labels ]
  simp [bind_def, pure_def, doQuery, netCall, oracleEnv, foldl_addKey_all,
    collect_labels]

theorem delete_annotations_run (u : Nat → List Key) (imagePk : String)
    (ks : List Key) (s : St) :
    delete_annotations imagePk ks (oracleEnv u) s =
      Except.ok (ks ++ collectAnns s.tbl imagePk,
        { s with calls := s.calls + 1 }) := by
  rw [ delete_annotations]
  simp [bind_def, pure_def, doQuery, netCall, oracleEnv, foldl_addKey_all,
    collectAnns]

theorem deleteBlockImagesLoop_run (u : Nat → List Key) (ips : List String)
    (ks : List Key) (s : St) :
    deleteBlockImagesLoop ips ks (oracleEnv u) s =
      Except.ok (ks ++ collectImagesLoop s.tbl ips,
        { s with calls := s.calls + ips.length }) := by
  induction ips generalizing ks s with
  | nil => simp [deleteBlockImagesLoop, pure_def, collectImagesLoop]
  | cons ip rest ih =>
    rw [deleteBlockImagesLoop]
    simp only [bind_def, delete_annotations_run]
    rw [ih]
    simp [collectImagesLoop, add_delete_key, List.append_assoc]
    omega

theorem delete_block_images_run (u : Nat → List Key) (blockPk : String)
    (ks : List Key) (s : St) :
    delete_block_images blockPk ks (oracleEnv u) s =
      Except.ok (ks ++ collect_block_images s.tbl blockPk,
        { s with calls :=
            s.calls + 1 + (imagePksOf s.tbl blockPk).length }) := by
  rw [delete_block_images ]
  simp only [bind_def, doQuery, netCall, oracleEnv_faults,
    Bool.false_eq_true, if_false, foldl_addKey_if]
  rw [deleteBlockImagesLoop_run]
  simp [collect_block_images, imagePksOf, List.append_assoc]

theorem deleteKeys_append (t : Table) (a b : List Key) :
    deleteKeys t (a ++ b) = deleteKeys (deleteKeys t a) b := by
  unfold deleteKeys
  rw [List.foldl_append]

theorem batchLoop_all (reqs : List Key) (a : Nat) (s : St) :
    batchLoop reqs a (oracleEnv (fun _ => [])) s =
      Except.ok ((),
        { tbl := deleteKeys s.tbl reqs,
          ops := s.ops ++ [Op.batchDel reqs], calls := s.calls + 1 }) := by
  rw [batchLoop]
  simp [bind_def, doBatchWrite, netCall, doSleep, pure_def, oracleEnv]

theorem forM_batchLoop_all (cs : List (List Key)) (s : St) :
    (cs.forM (fun c => batchLoop c 0)) (oracleEnv (fun _ => [])) s =
      Except.ok ((),
        { tbl := deleteKeys s.tbl cs.join,
          ops := s.ops ++ cs.map Op.batchDel,
          calls := s.calls + cs.length }) := by
  induction cs generalizing s with
  | nil => simp [List.forM, pure_def, deleteKeys]
  | cons c rest ih =>
    simp only [List.forM_cons', bind_def, batchLoop_all]
    rw [ih]
    simp [List.join_cons, deleteKeys_append, List.append_assoc]
    omega

theorem batch_delete_items_all (ks : List Key) (s : St) :
    batch_delete_items ks (oracleEnv (fun _ => [])) s =
      Except.ok ((),
        { tbl := deleteKeys s.tbl ks,
          ops := s.ops ++ (chunks25 ks).map Op.batchDel,
          calls := s.calls + (chunks25 ks).length }) := by
  rw [batch_delete_items, forM_batchLoop_all, chunks25_join]

theorem delete_block_run (b : String) (t : Table) :
    ∃ s', runM (delete_block b) (oracleEnv (fun _ => [])) t =
        Except.ok ((), s') ∧
      s'.tbl = deleteKeys t (collect_block_keys t b) ∧
      s'.ops = (chunks25 (collect_block_keys t b)).map Op.batchDel := by
  rw [runM, delete_block]
  simp only [bind_def, delete_tasks_run, delete_labels_run,
    delete_block_images_run, delete_block_record, batch_delete_items_all]
  refine ⟨_, rfl, ?_, ?_⟩ <;>
    simp [collect_block_keys, List.append_assoc]

theorem collectAnns_subset {t : Table} {ip : String} {ips : List String}
    (h : ip ∈ ips) : ∀ k ∈ collectAnns t ip, k ∈ collectImagesLoop t ips := by
  induction ips with
  | nil => exact absurd h (List.not_mem_nil ip)
  | cons x rest ih =>
    intro k hk
    rw [collectImagesLoop]
    rcases List.mem_cons.mp h with rfl | h'
    · simp [List.mem_append, hk]
    · simp [List.mem_append, ih h' k hk]

theorem tasks_query_nil (t : Table) (b : String) :
    query (deleteKeys t (collect_block_keys t b)) ("BLOCK#" ++ b)
      "TASK#" = [] := by
  rw [List.eq_nil_iff_forall_not_mem]
  intro r hr
  rw [mem_query, mem_deleteKeys] at hr
  obtain ⟨⟨hrt, hnot⟩, hpk, hpre⟩ := hr
  apply hnot
  have hq : r ∈ query t ("BLOCK#" ++ b) "TASK#" :=
    mem_query.mpr ⟨hrt, hpk, hpre⟩
  have hsk : r.1.2 ∈ taskPksOf t ("BLOCK#" ++ b) := by
    rw [taskPksOf, List.mem_filterMap]
    exact ⟨r, hq, by rw [if_pos hpre]⟩
  have hk : r.1 = ("BLOCK#" ++ b, r.1.2) := by
    rw [← hpk]
  rw [hk, collect_block_keys]
  apply List.mem_append_left
  apply List.mem_append_left
  apply List.mem_append_left
  rw [collect_tasks]
  exact List.mem_append_left _ (List.mem_map_of_mem _ hsk)

theorem labels_query_nil (t : Table) (b : String) :
    query (deleteKeys t (collect_block_keys t b)) ("BLOCK#" ++ b)
      "LABEL#" = [] := by
  rw [List.eq_nil_iff_forall_not_mem]
  intro r hr
  rw [mem_query, mem_deleteKeys] at hr
  obtain ⟨⟨hrt, hnot⟩, hpk, hpre⟩ := hr
  apply hnot
  have hq : r ∈ query t ("BLOCK#" ++ b) "LABEL#" :=
    mem_query.mpr ⟨hrt, hpk, hpre⟩
  have hk : r.1 = ("BLOCK#" ++ b, r.1.2) := by
    rw [← hpk]
  rw [hk, collect_block_keys]
  apply List.mem_append_left
  apply List.mem_append_left
  apply List.mem_append_right
  exact List.mem_map_of_mem _ hq

theorem images_query_nil (t : Table) (b : String) :
    query (deleteKeys t (collect_block_keys t b)) ("BLOCK#" ++ b)
      "IMAGE#" = [] := by
  rw [List.eq_nil_iff_forall_not_mem]
  intro r hr
  rw [mem_query, mem_deleteKeys] at hr
  obtain ⟨⟨hrt, hnot⟩, hpk, hpre⟩ := hr
  apply hnot
  have hq : r ∈ query t ("BLOCK#" ++ b) "IMAGE#" :=
    mem_query.mpr ⟨hrt, hpk, hpre⟩
  have hsk : r.1.2 ∈ imagePksOf t ("BLOCK#" ++ b) := by
    rw [imagePksOf, List.mem_filterMap]
    exact ⟨r, hq, by rw [if_pos hpre]⟩
  have hk : r.1 = ("BLOCK#" ++ b, r.1.2) := by
    rw [← hpk]
  rw [hk, collect_block_keys]
  apply List.mem_append_left
  apply List.mem_append_right
  rw [collect_block_images]
  exact List.mem_append_left _ (List.mem_map_of_mem _ hsk)

theorem anns_query_nil (t : Table) (b : String) :
    ∀ r ∈ t, r.1.1 = "BLOCK#" ++ b → strHasPre "IMAGE#" r.1.2 = true →
      query (deleteKeys t (collect_block_keys t b)) r.1.2
        "ANNOTATION#" = [] := by
  intro r0 hr0 hr0pk hr0pre
  rw [List.eq_nil_iff_forall_not_mem]
  intro ra hra
  rw [mem_query, mem_deleteKeys] at hra
  obtain ⟨⟨hrat, hnot⟩, hapk, hapre⟩ := hra
  apply hnot
  have hq0 : r0 ∈ query t ("BLOCK#" ++ b) "IMAGE#" :=
    mem_query.mpr ⟨hr0, hr0pk, hr0pre⟩
  have hip : r0.1.2 ∈ imagePksOf t ("BLOCK#" ++ b) := by
    rw [imagePksOf, List.mem_filterMap]
    exact ⟨r0, hq0, by rw [if_pos hr0pre]⟩
  have hqa : ra ∈ query t r0.1.2 "ANNOTATION#" :=
    mem_query.mpr ⟨hrat, hapk, hapre⟩
  have hka : ra.1 ∈ collectAnns t r0.1.2 := by
    rw [collectAnns]
    have he : ra.1 = (r0.1.2, ra.1.2) := by
      rw [← hapk]
    rw [he]
    exact List.mem_map_of_mem _ hqa
  rw [collect_block_keys]
  apply List.mem_append_left
  apply List.mem_append_right
  rw [collect_block_images]
  exact List.mem_append_right _ (collectAnns_subset hip ra.1 hka)

theorem block_row_gone (t : Table) (b : String) :
    getItem (deleteKeys t (collect_block_keys t b))
      ("BLOCK", "BLOCK#" ++ b) = none := by
  rw [getItem_deleteKeys, if_pos]
  rw [collect_block_keys]
  apply List.mem_append_right
  simp

/-- C4: `delete_block` always succeeds, deleting exactly the collected
keys; afterwards no task, label or image row remains under the block's
partition, no annotation row remains under any of the block's images
(task-attached or not — all image rows live under the block partition,
which is what `delete_block_images` walks, even though
`delete_task_images` queries the `TASK#<task_id>` partition and finds
nothing there), and the block's own row is gone. -/
theorem C4_delete_block_cascade :
    ∀ (b : String) (t : Table),
      (∃ s', runM (delete_block b) (oracleEnv (fun _ => [])) t =
          Except.ok ((), s') ∧
        s'.tbl = deleteKeys t (collect_block_keys t b) ∧
        s'.ops = (chunks25 (collect_block_keys t b)).map Op.batchDel) ∧
      query (deleteKeys t (collect_block_keys t b)) ("BLOCK#" ++ b)
        "TASK#" = [] ∧
      query (deleteKeys t (collect_block_keys t b)) ("BLOCK#" ++ b)
        "LABEL#" = [] ∧
      query (deleteKeys t (collect_block_keys t b)) ("BLOCK#" ++ b)
        "IMAGE#" = [] ∧
      (∀ r ∈ t, r.1.1 = "BLOCK#" ++ b → strHasPre "IMAGE#" r.1.2 = true →
        query (deleteKeys t (collect_block_keys t b)) r.1.2
          "ANNOTATION#" = []) ∧
      getItem (deleteKeys t (collect_block_keys t b))
        ("BLOCK", "BLOCK#" ++ b) = none :=
  fun b t =>
    ⟨delete_block_run b t, tasks_query_nil t b, labels_query_nil t b,
     images_query_nil t b, anns_query_nil t b, block_row_gone t b⟩

/-- The spec's cascade scenario: a block with two tasks (one holding
three images, one none), one label, and two annotations per image. -/
def c4Tbl : Table :=
  [(("BLOCK", "BLOCK#" ++ "b"), [("image_count", AttrVal.N 3)]),
   (("BLOCK#" ++ "b", "TASK#" ++ "t1"), [("task_state", AttrVal.S "todo")]),
   (("BLOCK#" ++ "b", "TASK#" ++ "t2"), []),
   (("BLOCK#" ++ "b", "LABEL#" ++ "l1"), [("name", AttrVal.S "legend")]),
   (("BLOCK#" ++ "b", "IMAGE#" ++ "i1"), [("task_id", AttrVal.S "t1")]),
   (("BLOCK#" ++ "b", "IMAGE#" ++ "i2"), [("task_id", AttrVal.S "t1")]),
   (("BLOCK#" ++ "b", "IMAGE#" ++ "i3"), [("task_id", AttrVal.S "t1")]),
   (("IMAGE#" ++ "i1", "ANNOTATION#" ++ "a1"), [("geometry", AttrVal.S "g")]),
   (("IMAGE#" ++ "i1", "ANNOTATION#" ++ "a2"), [("geometry", AttrVal.S "g")]),
   (("IMAGE#" ++ "i2", "ANNOTATION#" ++ "a3"), [("geometry", AttrVal.S "g")]),
   (("IMAGE#" ++ "i2", "ANNOTATION#" ++ "a4"), [("geometry", AttrVal.S "g")]),
   (("IMAGE#" ++ "i3", "ANNOTATION#" ++ "a5"), [("geometry", AttrVal.S "g")]),
   (("IMAGE#" ++ "i3", "ANNOTATION#" ++ "a6"), [("geometry", AttrVal.S "g")])]

/-- C4 witness: the cascade on the spec's 2-task/3-image/1-label
scenario leaves no descendant rows and no block row. -/
theorem C4_delete_block_cascade_witness :
    query (deleteKeys c4Tbl (collect_block_keys c4Tbl "b"))
      ("BLOCK#" ++ "b") "TASK#" = [] ∧
    query (deleteKeys c4Tbl (collect_block_keys c4Tbl "b"))
      ("BLOCK#" ++ "b") "LABEL#" = [] ∧
    query (deleteKeys c4Tbl (collect_block_keys c4Tbl "b"))
      ("BLOCK#" ++ "b") "IMAGE#" = [] ∧
    ((("BLOCK#" ++ "b", "IMAGE#" ++ "i1"),
      [("task_id", AttrVal.S "t1")]) : Key × Item) ∈ c4Tbl ∧
    query (deleteKeys c4Tbl (collect_block_keys c4Tbl "b"))
      ("IMAGE#" ++ "i1") "ANNOTATION#" = [] ∧
    getItem (deleteKeys c4Tbl (collect_block_keys c4Tbl "b"))
      ("BLOCK", "BLOCK#" ++ "b") = none :=
  ⟨(C4_delete_block_cascade "b" c4Tbl).2.1,
   (C4_delete_block_cascade "b" c4Tbl).2.2.1,
   (C4_delete_block_cascade "b" c4Tbl).2.2.2.1,
   by decide,
   (C4_delete_block_cascade "b" c4Tbl).2.2.2.2.1
     (("BLOCK#" ++ "b", "IMAGE#" ++ "i1"), [("task_id", AttrVal.S "t1")])
     (by decide) rfl (by decide),
   (C4_delete_block_cascade "b" c4Tbl).2.2.2.2.2⟩

/-! ## Claim C9: idempotent re-delete of a block -/

theorem collect_after_delete (t : Table) (b : String) :
    collect_block_keys (deleteKeys t (collect_block_keys t b)) b =
      [("BLOCK", "BLOCK#" ++ b)] := by
  rw [collect_block_keys, collect_tasks, taskPksOf, tasks_query_nil,
    collect_labels, labels_query_nil, collect_block_images, imagePksOf,
    images_query_nil]
  simp [collectTasksLoop, collectImagesLoop]

/-- C9: `delete_block` run a second time on the same block succeeds
again: the first run leaves the table at `deleteKeys t C`; the second
run's queries find no descendants, it collects only the (already
removed) block key, its batch delete is a no-op, and the table is
unchanged. -/
theorem C9_delete_block_idempotent :
    ∀ (b : String) (t : Table),
      (∃ s0, runM (delete_block b) (oracleEnv (fun _ => [])) t =
          Except.ok ((), s0) ∧
        s0.tbl = deleteKeys t (collect_block_keys t b)) ∧
      collect_block_keys (deleteKeys t (collect_block_keys t b)) b =
        [("BLOCK", "BLOCK#" ++ b)] ∧
      (∃ s1, runM (delete_block b) (oracleEnv (fun _ => []))
            (deleteKeys t (collect_block_keys t b)) =
          Except.ok ((), s1) ∧
        s1.tbl = deleteKeys t (collect_block_keys t b) ∧
        s1.ops = [Op.batchDel [("BLOCK", "BLOCK#" ++ b)]]) := by
  intro b t
  obtain ⟨s0, h0, h0t, _⟩ := delete_block_run b t
  refine ⟨⟨s0, h0, h0t⟩, collect_after_delete t b, ?_⟩
  obtain ⟨s1, h1, h1t, h1o⟩ :=
    delete_block_run b (deleteKeys t (collect_block_keys t b))
  refine ⟨s1, h1, ?_, ?_⟩
  · rw [h1t, collect_after_delete]
    show deleteItem _ _ = _
    exact deleteItem_of_absent (block_row_gone t b)
  · rw [h1o, collect_after_delete]
    rw [chunks25]
    simp [chunks25]

/-! ## Claim C3: orphan prevention and counters in `delete_image` -/

theorem getItem_ne_none_of_mem {r : Key × Item} {t : Table} (h : r ∈ t) :
    getItem t r.1 ≠ none := by
  induction t with
  | nil => exact absurd h (List.not_mem_nil r)
  | cons x xs ih =>
    rw [getItem]
    by_cases hx : x.1 = r.1
    · simp [hx]
    · rcases List.mem_cons.mp h with rfl | h'
      · exact absurd rfl hx
      · rw [if_neg hx]
        exact ih h'

theorem exists_mem_of_getItem_some {t : Table} {k : Key} {it : Item}
    (h : getItem t k = some it) : ∃ r ∈ t, r.1 = k := by
  induction t with
  | nil => simp [getItem] at h
  | cons x xs ih =>
    rw [getItem] at h
    by_cases hx : x.1 = k
    · exact ⟨x, List.mem_cons_self x xs, hx⟩
    · rw [if_neg hx] at h
      obtain ⟨r, hr, hrk⟩ := ih h
      exact ⟨r, List.mem_cons_of_mem x hr, hrk⟩

theorem query_putItem_inplace {t : Table} {k : Key} {x : Item}
    (hx : getItem t k = some x) (it : Item) {pk : String}
    (hpk : k.1 ≠ pk) (pre : String) :
    query (putItem t k it) pk pre = query t pk pre := by
  induction t with
  | nil => simp [getItem] at hx
  | cons r rs ih =>
    rw [getItem] at hx
    by_cases hr : r.1 = k
    · rw [putItem, if_pos hr, query, query]
      have h1 : ¬((k, it).1.1 = pk ∧ strHasPre pre (k, it).1.2 = true) :=
        fun hc => hpk hc.1
      have h2 : ¬(r.1.1 = pk ∧ strHasPre pre r.1.2 = true) :=
        fun hc => hpk (by rw [← hr]; exact hc.1)
      rw [if_neg h1, if_neg h2]
    · rw [if_neg hr] at hx
      rw [putItem, if_neg hr, query, query, ih hx]

theorem parseAnns_ok_shape {i : String} {rows : List (Key × Item)}
    {anns : List AnnotationR} (h : parseAnns i rows = Except.ok anns)
    (hpre : ∀ r ∈ rows, strHasPre "ANNOTATION#" r.1.2 = true) :
    anns.length = rows.length ∧
      ∀ r ∈ rows, ∃ a ∈ anns, "ANNOTATION#" ++ a.annotation_id = r.1.2 := by
  induction rows generalizing anns with
  | nil =>
    rw [parseAnns] at h
    injection h with h'
    subst h'
    exact ⟨rfl, by simp⟩
  | cons r rest ih =>
    have hpr : strHasPre "ANNOTATION#" r.1.2 = true :=
      hpre r (List.mem_cons_self r rest)
    have hstrip : strStrip "ANNOTATION#" r.1.2 =
        some (String.mk (r.1.2.data.drop "ANNOTATION#".data.length)) := by
      rw [strStrip, if_pos]
      exact hpr
    rw [parseAnns, hstrip] at h
    rcases hg : getAttr r.2 "geometry" with _ | v
    · rw [hg] at h
      exact absurd h (by simp)
    rcases v with g | hn | hb
    case S =>
      rw [hg] at h
      rcases hrest : parseAnns i rest with e | l
      · rw [hrest] at h
        exact absurd h (by simp [Except.map])
      · rw [hrest] at h
        simp only [Except.map] at h
        injection h with h'
        obtain ⟨hlen, hcov⟩ := ih hrest
          (fun r' hr' => hpre r' (List.mem_cons_of_mem r hr'))
        constructor
        · rw [← h']
          simp [hlen]
        · intro r' hr'
          rcases List.mem_cons.mp hr' with rfl | hmem
          · refine ⟨_, by rw [← h']; exact List.mem_cons_self _ _, ?_⟩
            exact strStrip_append hstrip
          · obtain ⟨a, ha, hae⟩ := hcov r' hmem
            exact ⟨a, by rw [← h']; exact List.mem_cons_of_mem _ ha, hae⟩
    case N =>
      rw [hg] at h
      exact absurd h (by simp)
    case B =>
      rw [hg] at h
      exact absurd h (by simp)

/-- One iteration of the per-annotation deletion loop of `delete_image`,
fault-free, on a state whose block and image rows carry numeric
`annotation_count`s: the annotation row is deleted and both counters are
decremented by one. -/
theorem delete_annotation_run (b i aid : String) (env : Env) (s : St)
    (bi im : Item) (nb ni : Int)
    (hf0 : env.faults s.calls = false)
    (hf1 : env.faults (s.calls + 1) = false)
    (hf2 : env.faults (s.calls + 1 + 1) = false)
    (hb : getItem s.tbl (blockKey b) = some bi)
    (hbn : getAttr bi "annotation_count" = some (AttrVal.N nb))
    (hi : getItem s.tbl (imageKey b i) = some im)
    (hin : getAttr im "annotation_count" = some (AttrVal.N ni)) :
    delete_annotation b i aid env s =
      Except.ok ((),
        { tbl := putItem
            (putItem (deleteItem s.tbl (annKey i aid)) (blockKey b)
              (setAttr bi "annotation_count" (AttrVal.N (nb + -1))))
            (imageKey b i)
            (setAttr im "annotation_count" (AttrVal.N (ni + -1))),
          ops := s.ops ++ [Op.del (annKey i aid),
            Op.updAdd (blockKey b) "annotation_count" (-1),
            Op.updAdd (imageKey b i) "annotation_count" (-1)],
          calls := s.calls + 1 + 1 + 1 }) := by
  have h1 : getItem (deleteItem s.tbl (annKey i aid)) (blockKey b) =
      some bi := by
    rw [getItem_deleteItem_ne _ (annKey_ne_blockKey i aid b).symm, hb]
  have h2 := updateAdd_of_num h1 hbn (-1)
  have h3 : getItem (putItem (deleteItem s.tbl (annKey i aid)) (blockKey b)
      (setAttr bi "annotation_count" (AttrVal.N (nb + -1)))) (imageKey b i) =
      some im := by
    rw [getItem_putItem_ne _ _ (imageKey_ne_blockKey b b i),
      getItem_deleteItem_ne _ (annKey_ne_imageKey i aid b i).symm, hi]
  have h4 := updateAdd_of_num h3 hin (-1)
  rw [ delete_annotation]
  simp [bind_def, doDel, doUpdAdd, netCall, hf0, hf1, hf2, h2, h4, pure_def]

/-- The whole per-annotation deletion loop of `delete_image`, fault-free:
it succeeds; afterwards the block row's `annotation_count` went down by
one per annotation (other block fields untouched), the image row is still
present with its own `annotation_count` likewise decremented, every
listed annotation row is gone, and every other key is untouched. -/
theorem annLoop_run (b i : String) (env : Env)
    (hnf : ∀ n, env.faults n = false) :
    ∀ (anns : List AnnotationR) (s : St) (bi im : Item) (nb ni : Int),
      getItem s.tbl (blockKey b) = some bi →
      getAttr bi "annotation_count" = some (AttrVal.N nb) →
      getItem s.tbl (imageKey b i) = some im →
      getAttr im "annotation_count" = some (AttrVal.N ni) →
      ∃ s' : St,
        (anns.forM (fun a => delete_annotation b i a.annotation_id)) env s
          = Except.ok ((), s') ∧
        (∃ bi', getItem s'.tbl (blockKey b) = some bi' ∧
          getAttr bi' "annotation_count" =
            some (AttrVal.N (nb - anns.length)) ∧
          ∀ f, f ≠ "annotation_count" → getAttr bi' f = getAttr bi f) ∧
        (∃ im', getItem s'.tbl (imageKey b i) = some im' ∧
          getAttr im' "annotation_count" =
            some (AttrVal.N (ni - anns.length))) ∧
        (∀ a ∈ anns, getItem s'.tbl (annKey i a.annotation_id) = none) ∧
        (∀ k, k ≠ blockKey b → k ≠ imageKey b i →
          (∀ a ∈ anns, k ≠ annKey i a.annotation_id) →
          getItem s'.tbl k = getItem s.tbl k) := by
  intro anns
  induction anns with
  | nil =>
    intro s bi im nb ni hb hbn hi hin
    refine ⟨s, by simp [List.forM, pure_def], ⟨bi, hb, ?_, fun _ _ => rfl⟩,
      ⟨im, hi, ?_⟩, by simp, fun _ _ _ _ => rfl⟩
    · simpa using hbn
    · simpa using hin
  | cons a rest ih =>
    intro s bi im nb ni hb hbn hi hin
    have hone := delete_annotation_run b i a.annotation_id env s bi im nb ni
      (hnf _) (hnf _) (hnf _) hb hbn hi hin
    have hb1 : getItem (putItem
        (putItem (deleteItem s.tbl (annKey i a.annotation_id)) (blockKey b)
          (setAttr bi "annotation_count" (AttrVal.N (nb + -1))))
        (imageKey b i)
        (setAttr im "annotation_count" (AttrVal.N (ni + -1)))) (blockKey b) =
        some (setAttr bi "annotation_count" (AttrVal.N (nb + -1))) := by
      rw [getItem_putItem_ne _ _ (imageKey_ne_blockKey b b i).symm,
        getItem_putItem_self]
    have hi1 : getItem (putItem
        (putItem (deleteItem s.tbl (annKey i a.annotation_id)) (blockKey b)
          (setAttr bi "annotation_count" (AttrVal.N (nb + -1))))
        (imageKey b i)
        (setAttr im "annotation_count" (AttrVal.N (ni + -1)))) (imageKey b i) =
        some (setAttr im "annotation_count" (AttrVal.N (ni + -1))) :=
      getItem_putItem_self _ _ _
    obtain ⟨s2, hrun2, ⟨bi', hbi', hbc', hbf'⟩, ⟨im', him', himc'⟩,
        hnone, hframe⟩ :=
      ih { tbl := putItem
             (putItem (deleteItem s.tbl (annKey i a.annotation_id))
               (blockKey b)
               (setAttr bi "annotation_count" (AttrVal.N (nb + -1))))
             (imageKey b i)
             (setAttr im "annotation_count" (AttrVal.N (ni + -1))),
           ops := s.ops ++ [Op.del (annKey i a.annotation_id),
             Op.updAdd (blockKey b) "annotation_count" (-1),
             Op.updAdd (imageKey b i) "annotation_count" (-1)],
           calls := s.calls + 1 + 1 + 1 }
        (setAttr bi "annotation_count" (AttrVal.N (nb + -1)))
        (setAttr im "annotation_count" (AttrVal.N (ni + -1)))
        (nb + -1) (ni + -1) hb1 (getAttr_setAttr_self _ _ _)
        hi1 (getAttr_setAttr_self _ _ _)
    refine ⟨s2, ?_, ⟨bi', hbi', ?_, ?_⟩, ⟨im', him', ?_⟩, ?_, ?_⟩
    · simp only [List.forM_cons', bind_def, hone]
      exact hrun2
    · rw [hbc']
      congr 2
      simp only [List.length_cons]
      push_cast
      ring
    · intro f hf
      rw [hbf' f hf, getAttr_setAttr_ne _ _ hf]
    · rw [himc']
      congr 2
      simp only [List.length_cons]
      push_cast
      ring
    · intro a' ha'
      rcases List.mem_cons.mp ha' with rfl | hmem
      · by_cases hdup : ∀ a'' ∈ rest,
            annKey i a'.annotation_id ≠ annKey i a''.annotation_id
        · rw [hframe _ (annKey_ne_blockKey _ _ _) (annKey_ne_imageKey _ _ _ _)
            hdup]
          rw [getItem_putItem_ne _ _ (annKey_ne_imageKey _ _ _ _),
            getItem_putItem_ne _ _ (annKey_ne_blockKey _ _ _),
            getItem_deleteItem_self]
        · push_neg at hdup
          obtain ⟨a'', ha'', heq⟩ := hdup
          rw [heq]
          exact hnone a'' ha''
      · exact hnone a' hmem
    · intro k hkb hki hka
      rw [hframe k hkb hki (fun a' ha' => hka a' (List.mem_cons_of_mem a ha'))]
      rw [getItem_putItem_ne _ _ hki, getItem_putItem_ne _ _ hkb,
        getItem_deleteItem_ne _ (hka a (List.mem_cons_self a rest))]

/-- A key in the image's partition is not a block key. -/
theorem imgpk_key_ne_blockKey {k : Key} {i : String}
    (hk : k.1 = "IMAGE#" ++ i) (b : String) : k ≠ blockKey b := by
  intro he
  have h1 : k.1 = "BLOCK" := congrArg Prod.fst he
  exact (sBLOCK_ne_sIMAGEhash i) (h1.symm.trans hk)

/-- A key in the image's partition is not a task key. -/
theorem imgpk_key_ne_taskKey {k : Key} {i : String}
    (hk : k.1 = "IMAGE#" ++ i) (b t : String) : k ≠ taskKey b t := by
  intro he
  have h1 : k.1 = "BLOCK#" ++ b := congrArg Prod.fst he
  exact (sBLOCKhash_ne_sIMAGEhash b i) (h1.symm.trans hk)

/-- A key in the image's partition is not an image key. -/
theorem imgpk_key_ne_imageKey {k : Key} {i : String}
    (hk : k.1 = "IMAGE#" ++ i) (b i' : String) : k ≠ imageKey b i' := by
  intro he
  have h1 : k.1 = "BLOCK#" ++ b := congrArg Prod.fst he
  exact (sBLOCKhash_ne_sIMAGEhash b i) (h1.symm.trans hk)

/-- The tail of `delete_image` (annotation loop plus the final image-row
delete) run fault-free from any state whose table agrees with the
original one on the image's partition: the run succeeds, afterwards the
image partition holds no annotation row, the image row is gone, the
block row's `annotation_count` went down by one per parsed annotation
(other block fields untouched), and every key outside the block row, the
image row and the image partition is untouched. -/
theorem delete_image_tail (b i newId now : String) (tbl t3 : Table)
    (anns : List AnnotationR) (ops3 : List Op) (n3 : Nat)
    (bi3 im : Item) (a3 ai : Int)
    (hB3 : getItem t3 (blockKey b) = some bi3)
    (hB3a : getAttr bi3 "annotation_count" = some (AttrVal.N a3))
    (hI3 : getItem t3 (imageKey b i) = some im)
    (hia : getAttr im "annotation_count" = some (AttrVal.N ai))
    (hframe3 : ∀ k : Key, k.1 = "IMAGE#" ++ i → getItem t3 k = getItem tbl k)
    (hpa : parseAnns i (query tbl ("IMAGE#" ++ i) "ANNOTATION#") =
      Except.ok anns) :
    ∃ s' : St,
      ((anns.forM (fun a => delete_annotation b i a.annotation_id)) >>=
          fun _ => doDel (imageKey b i)) (okEnv newId now)
        { tbl := t3, ops := ops3, calls := n3 } = Except.ok ((), s') ∧
      query s'.tbl ("IMAGE#" ++ i) "ANNOTATION#" = [] ∧
      (∀ a ∈ anns, getItem s'.tbl (annKey i a.annotation_id) = none) ∧
      getItem s'.tbl (imageKey b i) = none ∧
      (∃ bi', getItem s'.tbl (blockKey b) = some bi' ∧
        getAttr bi' "annotation_count" =
          some (AttrVal.N (a3 - anns.length)) ∧
        ∀ f, f ≠ "annotation_count" → getAttr bi' f = getAttr bi3 f) ∧
      (∀ k : Key, k ≠ blockKey b → k ≠ imageKey b i → k.1 ≠ "IMAGE#" ++ i →
        getItem s'.tbl k = getItem t3 k) := by
  obtain ⟨s2, hrun2, ⟨bi', hbi', hbc', hbf'⟩, ⟨im', him', himc'⟩,
      hnone, hframe⟩ :=
    annLoop_run b i (okEnv newId now) (fun _ => rfl) anns
      { tbl := t3, ops := ops3, calls := n3 } bi3 im a3 ai hB3 hB3a hI3 hia
  refine ⟨{ tbl := deleteItem s2.tbl (imageKey b i),
            ops := s2.ops ++ [Op.del (imageKey b i)],
            calls := s2.calls + 1 }, ?_, ?_, ?_, ?_, ?_, ?_⟩
  · simp only [bind_def, hrun2]
    simp [doDel, netCall, okEnv, pure_def]
  · show query (deleteItem s2.tbl (imageKey b i))
      ("IMAGE#" ++ i) "ANNOTATION#" = []
    refine List.eq_nil_iff_forall_not_mem.mpr ?_
    intro r hr
    rw [mem_query] at hr
    obtain ⟨hrT, hrPK, hrPre⟩ := hr
    have hkimg : r.1 ≠ imageKey b i := imgpk_key_ne_imageKey hrPK b i
    have hkblk : r.1 ≠ blockKey b := imgpk_key_ne_blockKey hrPK b
    have hsome := getItem_ne_none_of_mem hrT
    by_cases hann : ∀ a ∈ anns, r.1 ≠ annKey i a.annotation_id
    · have h1 : getItem (deleteItem s2.tbl (imageKey b i)) r.1 =
          getItem tbl r.1 := by
        rw [getItem_deleteItem_ne _ hkimg, hframe r.1 hkblk hkimg hann]
        exact hframe3 r.1 hrPK
      rcases hgi : getItem tbl r.1 with _ | it
      · exact hsome (h1.trans hgi)
      · obtain ⟨r', hr'T, hr'k⟩ := exists_mem_of_getItem_some hgi
        have hr'q : r' ∈ query tbl ("IMAGE#" ++ i) "ANNOTATION#" :=
          mem_query.mpr ⟨hr'T, by rw [hr'k]; exact hrPK,
            by rw [hr'k]; exact hrPre⟩
        obtain ⟨a, haanns, haeq⟩ :=
          (parseAnns_ok_shape hpa
            (fun r0 hr0 => (mem_query.mp hr0).2.2)).2 r' hr'q
        refine hann a haanns ?_
        have h2 : r.1.2 = "ANNOTATION#" ++ a.annotation_id := by
          rw [← hr'k, ← haeq]
        exact Prod.ext hrPK h2
    · push_neg at hann
      obtain ⟨a, ha, heq⟩ := hann
      refine hsome ?_
      rw [getItem_deleteItem_ne _ hkimg, heq]
      exact hnone a ha
  · intro a ha
    show getItem (deleteItem s2.tbl (imageKey b i))
      (annKey i a.annotation_id) = none
    rw [getItem_deleteItem_ne _ (annKey_ne_imageKey i a.annotation_id b i)]
    exact hnone a ha
  · exact getItem_deleteItem_self _ _
  · refine ⟨bi', ?_, hbc', hbf'⟩
    show getItem (deleteItem s2.tbl (imageKey b i)) (blockKey b) = some bi'
    rw [getItem_deleteItem_ne _ (imageKey_ne_blockKey b b i).symm]
    exact hbi'
  · intro k hkb hki hkpk
    have hka : ∀ a ∈ anns, k ≠ annKey i a.annotation_id := by
      intro a ha he
      exact hkpk (congrArg Prod.fst he)
    show getItem (deleteItem s2.tbl (imageKey b i)) k = getItem t3 k
    rw [getItem_deleteItem_ne _ hki]
    exact hframe k hkb hki hka

/-- **C3.**  A successful `delete_image` on an existing image leaves zero
annotation rows under the image's partition (every parsed annotation row
is deleted, and the block's `annotation_count` went down by one per
annotation), deletes the image row, decrements the block's `image_count`
by one, decrements the task's `image_count` by one whenever the image
carries a `task_id`, and decrements the block's `approved_image_count`
by one exactly when that task's state is "done". -/
theorem C3_delete_image_cascade
    (b i newId now : String) (tbl : Table) (im bi : Item)
    (nb an ai q : Int) (anns : List AnnotationR)
    (hit : getItem tbl (imageKey b i) = some im)
    (hbB : getItem tbl (blockKey b) = some bi)
    (hbn : getAttr bi "image_count" = some (AttrVal.N nb))
    (hba : getAttr bi "annotation_count" = some (AttrVal.N an))
    (happ : getAttr bi "approved_image_count" = some (AttrVal.N q))
    (hia : getAttr im "annotation_count" = some (AttrVal.N ai))
    (hpa : parseAnns i (query tbl ("IMAGE#" ++ i) "ANNOTATION#") =
      Except.ok anns)
    (htask : ∀ tid, parseStrOpt (getAttr im "task_id") = some tid →
      ∃ ti m, getItem tbl (taskKey b tid) = some ti ∧
        getAttr ti "image_count" = some (AttrVal.N m)) :
    ∃ s' : St,
      runM ( delete_image b i) (okEnv newId now) tbl = Except.ok ((), s') ∧
      anns.length = (query tbl ("IMAGE#" ++ i) "ANNOTATION#").length ∧
      query s'.tbl ("IMAGE#" ++ i) "ANNOTATION#" = [] ∧
      (∀ a ∈ anns, getItem s'.tbl (annKey i a.annotation_id) = none) ∧
      getItem s'.tbl (imageKey b i) = none ∧
      (∃ bi', getItem s'.tbl (blockKey b) = some bi' ∧
        getAttr bi' "image_count" = some (AttrVal.N (nb - 1)) ∧
        getAttr bi' "annotation_count" =
          some (AttrVal.N (an - anns.length)) ∧
        (parseStrOpt (getAttr im "task_id") = none →
          getAttr bi' "approved_image_count" = some (AttrVal.N q)) ∧
        (∀ tid ti, parseStrOpt (getAttr im "task_id") = some tid →
          getItem tbl (taskKey b tid) = some ti →
          getAttr bi' "approved_image_count" = some (AttrVal.N
            (if parseStrD (getAttr ti "task_state") = "done" then q - 1
             else q)))) ∧
      (∀ tid ti m, parseStrOpt (getAttr im "task_id") = some tid →
        getItem tbl (taskKey b tid) = some ti →
        getAttr ti "image_count" = some (AttrVal.N m) →
        ∃ ti', getItem s'.tbl (taskKey b tid) = some ti' ∧
          getAttr ti' "image_count" = some (AttrVal.N (m - 1))) := by
  have hlen := (parseAnns_ok_shape hpa
    (fun r0 hr0 => (mem_query.mp hr0).2.2)).1
  have hpk1 : (blockKey b).1 ≠ "IMAGE#" ++ i := sBLOCK_ne_sIMAGEhash i
  have hfic : ("annotation_count" : String) ≠ "image_count" := by decide
  have hsub1 : nb + -1 = nb - 1 := by ring
  have hsubq : q + -1 = q - 1 := by ring
  have e1 := updateAdd_of_num hbB hbn (-1)
  cases hti0 : parseStrOpt (getAttr im "task_id") with
  | none =>
    have hB3 : getItem (putItem tbl (blockKey b)
        (setAttr bi "image_count" (AttrVal.N (nb + -1)))) (blockKey b) =
        some (setAttr bi "image_count" (AttrVal.N (nb + -1))) :=
      getItem_putItem_self _ _ _
    have hB3a : getAttr (setAttr bi "image_count" (AttrVal.N (nb + -1)))
        "annotation_count" = some (AttrVal.N an) := by
      rw [getAttr_setAttr_ne _ _ hfic, hba]
    have hI3 : getItem (putItem tbl (blockKey b)
        (setAttr bi "image_count" (AttrVal.N (nb + -1)))) (imageKey b i) =
        some im := by
      rw [getItem_putItem_ne _ _ (imageKey_ne_blockKey b b i), hit]
    have hq3 := query_putItem_inplace hbB
      (setAttr bi "image_count" (AttrVal.N (nb + -1))) hpk1 "ANNOTATION#"
    have hframe3 : ∀ k : Key, k.1 = "IMAGE#" ++ i →
        getItem (putItem tbl (blockKey b)
          (setAttr bi "image_count" (AttrVal.N (nb + -1)))) k =
          getItem tbl k := by
      intro k hk
      rw [getItem_putItem_ne _ _ (imgpk_key_ne_blockKey hk b)]
    obtain ⟨s', htail, hq0, hann0, himg0, ⟨bi', hgb, hba', hbf'⟩, hfr0⟩ :=
      delete_image_tail b i newId now tbl
        (putItem tbl (blockKey b)
          (setAttr bi "image_count" (AttrVal.N (nb + -1)))) anns
        [Op.updAdd (blockKey b) "image_count" (-1)] 3
        (setAttr bi "image_count" (AttrVal.N (nb + -1))) im an ai
        hB3 hB3a hI3 hia hframe3 hpa
    refine ⟨s', ?_, hlen, hq0, hann0, himg0,
      ⟨bi', hgb, ?_, hba', ?_, ?_⟩, ?_⟩
    · have hmid : runM ( delete_image b i) (okEnv newId now) tbl =
          ((anns.forM (fun a => delete_annotation b i a.annotation_id)) >>=
            fun _ => doDel (imageKey b i)) (okEnv newId now)
          { tbl := putItem tbl (blockKey b)
              (setAttr bi "image_count" (AttrVal.N (nb + -1))),
            ops := [Op.updAdd (blockKey b) "image_count" (-1)],
            calls := 3 } := by
        simp [runM, delete_image, get_image, list_annotations, liftEx,
          doGet, doUpdAdd, doQuery, netCall, bind_def, pure_def, okEnv,
          parseImageItem, hit, hti0, e1, hq3, hpa]
      rw [hmid]
      exact htail
    · rw [ hbf' "image_count" (by decide), getAttr_setAttr_self, hsub1]
    · intro _
      rw [ hbf' "approved_image_count" (by decide),
        getAttr_setAttr_ne _ _ (by decide), happ]
    · intro tid ti h1 _
      exact absurd h1 (by simp)
    · intro tid ti m h1
      exact absurd h1 (by simp)
  | some tid =>
    obtain ⟨ti, m, hT, hTn⟩ := htask tid hti0
    have hsubm : m + -1 = m - 1 := by ring
    have hpk2 : (taskKey b tid).1 ≠ "IMAGE#" ++ i :=
      sBLOCKhash_ne_sIMAGEhash b i
    have hT1 : getItem (putItem tbl (blockKey b)
        (setAttr bi "image_count" (AttrVal.N (nb + -1)))) (taskKey b tid) =
        some ti := by
      rw [getItem_putItem_ne _ _ (taskKey_ne_blockKey b b tid), hT]
    have e2 := updateAdd_of_num hT1 hTn (-1)
    have hTT2 : getItem (putItem (putItem tbl (blockKey b)
        (setAttr bi "image_count" (AttrVal.N (nb + -1)))) (taskKey b tid)
        (setAttr ti "image_count" (AttrVal.N (m + -1)))) (taskKey b tid) =
        some (setAttr ti "image_count" (AttrVal.N (m + -1))) :=
      getItem_putItem_self _ _ _
    have hts : getAttr (setAttr ti "image_count" (AttrVal.N (m + -1)))
        "task_state" = getAttr ti "task_state" :=
      getAttr_setAttr_ne _ _ (by decide)
    have hB2 : getItem (putItem (putItem tbl (blockKey b)
        (setAttr bi "image_count" (AttrVal.N (nb + -1)))) (taskKey b tid)
        (setAttr ti "image_count" (AttrVal.N (m + -1)))) (blockKey b) =
        some (setAttr bi "image_count" (AttrVal.N (nb + -1))) := by
      rw [getItem_putItem_ne _ _ (taskKey_ne_blockKey b b tid).symm,
        getItem_putItem_self]
    by_cases hc : parseStrD (getAttr ti "task_state") = "done"
    · have hB2a : getAttr (setAttr bi "image_count" (AttrVal.N (nb + -1)))
          "approved_image_count" = some (AttrVal.N q) := by
        rw [getAttr_setAttr_ne _ _ (by decide), happ]
      have e3 := updateAdd_of_num hB2 hB2a (-1)
      have hB3 : getItem (putItem (putItem (putItem tbl (blockKey b)
          (setAttr bi "image_count" (AttrVal.N (nb + -1)))) (taskKey b tid)
          (setAttr ti "image_count" (AttrVal.N (m + -1)))) (blockKey b)
          (setAttr (setAttr bi "image_count" (AttrVal.N (nb + -1)))
            "approved_image_count" (AttrVal.N (q + -1)))) (blockKey b) =
          some (setAttr (setAttr bi "image_count" (AttrVal.N (nb + -1)))
            "approved_image_count" (AttrVal.N (q + -1))) :=
        getItem_putItem_self _ _ _
      have hB3a : getAttr (setAttr (setAttr bi "image_count"
          (AttrVal.N (nb + -1))) "approved_image_count"
          (AttrVal.N (q + -1))) "annotation_count" = some (AttrVal.N an) := by
        rw [getAttr_setAttr_ne _ _ (by decide),
          getAttr_setAttr_ne _ _ hfic, hba]
      have hI3 : getItem (putItem (putItem (putItem tbl (blockKey b)
          (setAttr bi "image_count" (AttrVal.N (nb + -1)))) (taskKey b tid)
          (setAttr ti "image_count" (AttrVal.N (m + -1)))) (blockKey b)
          (setAttr (setAttr bi "image_count" (AttrVal.N (nb + -1)))
            "approved_image_count" (AttrVal.N (q + -1)))) (imageKey b i) =
          some im := by
        rw [getItem_putItem_ne _ _ (imageKey_ne_blockKey b b i),
          getItem_putItem_ne _ _ (imageKey_ne_taskKey b b i tid),
          getItem_putItem_ne _ _ (imageKey_ne_blockKey b b i), hit]
      have hq3 := (query_putItem_inplace hB2
        (setAttr (setAttr bi "image_count" (AttrVal.N (nb + -1)))
          "approved_image_count" (AttrVal.N (q + -1))) hpk1
        "ANNOTATION#").trans
        ((query_putItem_inplace hT1
          (setAttr ti "image_count" (AttrVal.N (m + -1))) hpk2
          "ANNOTATION#").trans
        (query_putItem_inplace hbB
          (setAttr bi "image_count" (AttrVal.N (nb + -1))) hpk1
          "ANNOTATION#"))
      have hframe3 : ∀ k : Key, k.1 = "IMAGE#" ++ i →
          getItem (putItem (putItem (putItem tbl (blockKey b)
            (setAttr bi "image_count" (AttrVal.N (nb + -1))))
            (taskKey b tid)
            (setAttr ti "image_count" (AttrVal.N (m + -1)))) (blockKey b)
            (setAttr (setAttr bi "image_count" (AttrVal.N (nb + -1)))
              "approved_image_count" (AttrVal.N (q + -1)))) k =
            getItem tbl k := by
        intro k hk
        rw [getItem_putItem_ne _ _ (imgpk_key_ne_blockKey hk b),
          getItem_putItem_ne _ _ (imgpk_key_ne_taskKey hk b tid),
          getItem_putItem_ne _ _ (imgpk_key_ne_blockKey hk b)]
      obtain ⟨s', htail, hq0, hann0, himg0, ⟨bi', hgb, hba', hbf'⟩, hfr0⟩ :=
        delete_image_tail b i newId now tbl
          (putItem (putItem (putItem tbl (blockKey b)
            (setAttr bi "image_count" (AttrVal.N (nb + -1))))
            (taskKey b tid)
            (setAttr ti "image_count" (AttrVal.N (m + -1)))) (blockKey b)
            (setAttr (setAttr bi "image_count" (AttrVal.N (nb + -1)))
              "approved_image_count" (AttrVal.N (q + -1)))) anns
          [Op.updAdd (blockKey b) "image_count" (-1),
           Op.updAdd (taskKey b tid) "image_count" (-1),
           Op.updAdd (blockKey b) "approved_image_count" (-1)] 6
          (setAttr (setAttr bi "image_count" (AttrVal.N (nb + -1)))
            "approved_image_count" (AttrVal.N (q + -1))) im an ai
          hB3 hB3a hI3 hia hframe3 hpa
      refine ⟨s', ?_, hlen, hq0, hann0, himg0,
        ⟨bi', hgb, ?_, hba', ?_, ?_⟩, ?_⟩
      · have hmid : runM ( delete_image b i) (okEnv newId now) tbl =
            ((anns.forM (fun a => delete_annotation b i a.annotation_id)) >>=
              fun _ => doDel (imageKey b i)) (okEnv newId now)
            { tbl := putItem (putItem (putItem tbl (blockKey b)
                (setAttr bi "image_count" (AttrVal.N (nb + -1))))
                (taskKey b tid)
                (setAttr ti "image_count" (AttrVal.N (m + -1))))
                (blockKey b)
                (setAttr (setAttr bi "image_count" (AttrVal.N (nb + -1)))
                  "approved_image_count" (AttrVal.N (q + -1))),
              ops := [Op.updAdd (blockKey b) "image_count" (-1),
                Op.updAdd (taskKey b tid) "image_count" (-1),
                Op.updAdd (blockKey b) "approved_image_count" (-1)],
              calls := 6 } := by
          simp [runM, delete_image, get_image, get_task, list_annotations,
            liftEx, doGet, doUpdAdd, doQuery, netCall, bind_def, pure_def,
            okEnv, parseImageItem, parseTaskItem, hit, hti0, e1, e2, e3,
            hTT2, hts, hc, hq3, hpa]
        rw [hmid]
        exact htail
      · rw [ hbf' "image_count" (by decide),
          getAttr_setAttr_ne _ _ (by decide), getAttr_setAttr_self, hsub1]
      · intro h1
        exact absurd h1 (by simp)
      · intro tid' ti' h1 h2
        obtain rfl : tid' = tid := (Option.some.inj h1).symm
        obtain rfl : ti' = ti := by
          rw [hT] at h2
          exact (Option.some.inj h2).symm
        rw [if_pos hc, hbf' "approved_image_count" (by decide),
          getAttr_setAttr_self, hsubq]
      · intro tid' ti' m' h1 h2 h3
        obtain rfl : tid' = tid := (Option.some.inj h1).symm
        obtain rfl : ti' = ti := by
          rw [hT] at h2
          exact (Option.some.inj h2).symm
        obtain rfl : m' = m := by
          rw [hTn] at h3
          exact (AttrVal.N.inj (Option.some.inj h3)).symm
        refine ⟨setAttr ti' "image_count" (AttrVal.N (m' + -1)), ?_, ?_⟩
        · rw [hfr0 (taskKey b tid') (taskKey_ne_blockKey b b tid')
            (imageKey_ne_taskKey b b i tid').symm hpk2,
            getItem_putItem_ne _ _ (taskKey_ne_blockKey b b tid'),
            getItem_putItem_self]
        · rw [getAttr_setAttr_self, hsubm]
    · have hB3a : getAttr (setAttr bi "image_count" (AttrVal.N (nb + -1)))
          "annotation_count" = some (AttrVal.N an) := by
        rw [getAttr_setAttr_ne _ _ hfic, hba]
      have hI3 : getItem (putItem (putItem tbl (blockKey b)
          (setAttr bi "image_count" (AttrVal.N (nb + -1)))) (taskKey b tid)
          (setAttr ti "image_count" (AttrVal.N (m + -1)))) (imageKey b i) =
          some im := by
        rw [getItem_putItem_ne _ _ (imageKey_ne_taskKey b b i tid),
          getItem_putItem_ne _ _ (imageKey_ne_blockKey b b i), hit]
      have hq3 := (query_putItem_inplace hT1
          (setAttr ti "image_count" (AttrVal.N (m + -1))) hpk2
          "ANNOTATION#").trans
        (query_putItem_inplace hbB
          (setAttr bi "image_count" (AttrVal.N (nb + -1))) hpk1
          "ANNOTATION#")
      have hframe3 : ∀ k : Key, k.1 = "IMAGE#" ++ i →
          getItem (putItem (putItem tbl (blockKey b)
            (setAttr bi "image_count" (AttrVal.N (nb + -1))))
            (taskKey b tid)
            (setAttr ti "image_count" (AttrVal.N (m + -1)))) k =
            getItem tbl k := by
        intro k hk
        rw [getItem_putItem_ne _ _ (imgpk_key_ne_taskKey hk b tid),
          getItem_putItem_ne _ _ (imgpk_key_ne_blockKey hk b)]
      obtain ⟨s', htail, hq0, hann0, himg0, ⟨bi', hgb, hba', hbf'⟩, hfr0⟩ :=
        delete_image_tail b i newId now tbl
          (putItem (putItem tbl (blockKey b)
            (setAttr bi "image_count" (AttrVal.N (nb + -1))))
            (taskKey b tid)
            (setAttr ti "image_count" (AttrVal.N (m + -1)))) anns
          [Op.updAdd (blockKey b) "image_count" (-1),
           Op.updAdd (taskKey b tid) "image_count" (-1)] 5
          (setAttr bi "image_count" (AttrVal.N (nb + -1))) im an ai
          hB2 hB3a hI3 hia hframe3 hpa
      refine ⟨s', ?_, hlen, hq0, hann0, himg0,
        ⟨bi', hgb, ?_, hba', ?_, ?_⟩, ?_⟩
      · have hmid : runM ( delete_image b i) (okEnv newId now) tbl =
            ((anns.forM (fun a => delete_annotation b i a.annotation_id)) >>=
              fun _ => doDel (imageKey b i)) (okEnv newId now)
            { tbl := putItem (putItem tbl (blockKey b)
                (setAttr bi "image_count" (AttrVal.N (nb + -1))))
                (taskKey b tid)
                (setAttr ti "image_count" (AttrVal.N (m + -1))),
              ops := [Op.updAdd (blockKey b) "image_count" (-1),
                Op.updAdd (taskKey b tid) "image_count" (-1)],
              calls := 5 } := by
          simp [runM, delete_image, get_image, get_task, list_annotations,
            liftEx, doGet, doUpdAdd, doQuery, netCall, bind_def, pure_def,
            okEnv, parseImageItem, parseTaskItem, hit, hti0, e1, e2,
            hTT2, hts, hc, hq3, hpa]
        rw [hmid]
        exact htail
      · rw [ hbf' "image_count" (by decide), getAttr_setAttr_self, hsub1]
      · intro h1
        exact absurd h1 (by simp)
      · intro tid' ti' h1 h2
        obtain rfl : tid' = tid := (Option.some.inj h1).symm
        obtain rfl : ti' = ti := by
          rw [hT] at h2
          exact (Option.some.inj h2).symm
        rw [if_neg hc, hbf' "approved_image_count" (by decide),
          getAttr_setAttr_ne _ _ (by decide), happ]
      · intro tid' ti' m' h1 h2 h3
        obtain rfl : tid' = tid := (Option.some.inj h1).symm
        obtain rfl : ti' = ti := by
          rw [hT] at h2
          exact (Option.some.inj h2).symm
        obtain rfl : m' = m := by
          rw [hTn] at h3
          exact (AttrVal.N.inj (Option.some.inj h3)).symm
        refine ⟨setAttr ti' "image_count" (AttrVal.N (m' + -1)), ?_, ?_⟩
        · rw [hfr0 (taskKey b tid') (taskKey_ne_blockKey b b tid')
            (imageKey_ne_taskKey b b i tid').symm hpk2,
            getItem_putItem_self]
        · rw [getAttr_setAttr_self, hsubm]

/-- Witness block row for C3: 3 images, 2 annotations, 1 approved. -/
def c3Blk : Item :=
  [("image_count", AttrVal.N 3), ("annotation_count", AttrVal.N 2),
   ("approved_image_count", AttrVal.N 1)]

/-- Witness task row for C3: a "done" task with one image. -/
def c3Task : Item :=
  [("task_state", AttrVal.S "done"), ("image_count", AttrVal.N 1)]

/-- Witness image row for C3: attached to task "t", two annotations. -/
def c3Img : Item :=
  [("task_id", AttrVal.S "t"), ("annotation_count", AttrVal.N 2)]

/-- Witness annotation rows for C3. -/
def c3A1 : Item := [("geometry", AttrVal.S "g1")]

/-- Second witness annotation row for C3. -/
def c3A2 : Item := [("geometry", AttrVal.S "g2")]

/-- Witness table for C3: one block, one done task, one image of that
task with two annotations. -/
def c3Tbl : Table :=
  [(blockKey "b", c3Blk), (taskKey "b" "t", c3Task),
   (imageKey "b" "i", c3Img),
   (annKey "i" "a1", c3A1), (annKey "i" "a2", c3A2)]

/-- The parse of the witness image's annotation rows. -/
def c3Anns : List AnnotationR :=
  [{ annotation_id := "a1", image_id := "i", label_id := "default",
     geometry := "g1", created_by := "", created_at := "",
     updated_at := none },
   { annotation_id := "a2", image_id := "i", label_id := "default",
     geometry := "g2", created_by := "", created_at := "",
     updated_at := none }]

/-- Witness for C3 at the concrete table `c3Tbl`. -/
theorem C3_delete_image_cascade_witness :
    ∃ s' : St,
      runM ( delete_image "b" "i") (okEnv "id" "ts") c3Tbl =
        Except.ok ((), s') ∧
      c3Anns.length =
        (query c3Tbl ("IMAGE#" ++ "i") "ANNOTATION#").length ∧
      query s'.tbl ("IMAGE#" ++ "i") "ANNOTATION#" = [] ∧
      (∀ a ∈ c3Anns, getItem s'.tbl (annKey "i" a.annotation_id) = none) ∧
      getItem s'.tbl (imageKey "b" "i") = none ∧
      (∃ bi', getItem s'.tbl (blockKey "b") = some bi' ∧
        getAttr bi' "image_count" = some (AttrVal.N (3 - 1)) ∧
        getAttr bi' "annotation_count" =
          some (AttrVal.N (2 - c3Anns.length)) ∧
        (parseStrOpt (getAttr c3Img "task_id") = none →
          getAttr bi' "approved_image_count" = some (AttrVal.N 1)) ∧
        (∀ tid ti, parseStrOpt (getAttr c3Img "task_id") = some tid →
          getItem c3Tbl (taskKey "b" tid) = some ti →
          getAttr bi' "approved_image_count" = some (AttrVal.N
            (if parseStrD (getAttr ti "task_state") = "done" then 1 - 1
             else 1)))) ∧
      (∀ tid ti m, parseStrOpt (getAttr c3Img "task_id") = some tid →
        getItem c3Tbl (taskKey "b" tid) = some ti →
        getAttr ti "image_count" = some (AttrVal.N m) →
        ∃ ti', getItem s'.tbl (taskKey "b" tid) = some ti' ∧
          getAttr ti' "image_count" = some (AttrVal.N (m - 1))) :=
  C3_delete_image_cascade "b" "i" "id" "ts" c3Tbl c3Img c3Blk 3 2 2 1
    c3Anns rfl rfl rfl rfl rfl rfl rfl
    (fun tid h => by
      have h' : some "t" = some tid := h
      cases h'
      exact ⟨c3Task, 1, rfl, rfl⟩)
